import Mathlib

/-!
Verification of the Structured Document Extraction Engine of the
cetesb-cadri-csv repository.

The development shallowly embeds the relevant Python source functions:

* `pdf_parser_standalone.py` — the pattern library (`_compile_patterns`),
  the segmenter and field extractor (`_extract_residuos_enhanced`,
  `_extract_structured_fields`, `_create_enhanced_item_dict`) and the
  normalizer/validator (`validate_extraction`);
* `src/llm_pdf_parser.py` — the LLM response handling
  (`_parse_llm_response`, `_clean_json_datetime_formats`), the cache gate
  and fallback logic of `LLMPDFParser.parse_pdf`;
* `src/schemas.py` — the Pydantic models (`CADRIExtractionResult`,
  `ItemResiduoCADRI`) and `flatten_item_to_dict`;
* `src/store_csv.py` — `CSVStore.upsert`.

Python regular expressions are embedded as deterministic recursive
matchers over `List Char`.  Each matcher mirrors one compiled pattern of
the source; greedy / lazy quantifier behaviour is reproduced, and where
the embedding commits to maximal munch without backtracking a comment
justifies why backtracking cannot change the outcome for that pattern
(disjoint character classes).  Python semantics that matter here and are
modelled explicitly: `re.IGNORECASE` case folding (for the ASCII and the
accented letters that occur in the patterns), `re.MULTILINE` making `$`
match before every newline, the default `$` matching at the end of the
string or before one final newline, and `str.strip` / `str.split` /
`str.zfill` behaviour.
-/

/-! ## Character helpers -/

/-- Case folding used for `re.IGNORECASE` comparisons: ASCII letters plus
the accented letters that occur in the pattern literals of
`_compile_patterns`. -/
def foldC (c : Char) : Char :=
  if c = 'Í' then 'í' else if c = 'É' then 'é' else if c = 'Ç' then 'ç'
  else if c = 'Ã' then 'ã' else if c = 'Ó' then 'ó' else if c = 'Ú' then 'ú'
  else if c = 'Á' then 'á' else c.toLower

/-- Case-insensitive character comparison (`re.IGNORECASE`). -/
def ciEq (a b : Char) : Bool := foldC a = foldC b

/-- Python `\s` for the character set occurring in the processed texts
(ASCII whitespace). -/
def isSpaceC (c : Char) : Bool :=
  c = ' ' || c = '\t' || c = '\n' || c = '\r' || c = '\x0b' || c = '\x0c'

/-- ASCII letter, used for `[A-Z]` under `re.IGNORECASE` and `[a-zA-Z]`. -/
def isAsciiLetter (c : Char) : Bool := c.isAlpha

/-- `[A-Z]` without `re.IGNORECASE` (used by `validate_extraction`). -/
def isUpperAZ (c : Char) : Bool := 'A' ≤ c && c ≤ 'Z'

/-- Python `\w` restricted to the characters relevant here: ASCII
alphanumerics, underscore, and the accented letters of the corpus. -/
def isWordC (c : Char) : Bool :=
  c.isAlphanum || c = '_' || foldC c = 'í' || foldC c = 'é' || foldC c = 'ç' ||
  foldC c = 'ã' || foldC c = 'ó' || foldC c = 'ú' || foldC c = 'á'

/-- Python `str.upper` for the characters of the corpus. -/
def upperC (c : Char) : Char :=
  if c = 'í' then 'Í' else if c = 'é' then 'É' else if c = 'ç' then 'Ç'
  else if c = 'ã' then 'Ã' else if c = 'ó' then 'Ó' else if c = 'ú' then 'Ú'
  else if c = 'á' then 'Á' else c.toUpper

/-- Python `str.lower` for the characters of the corpus. -/
def lowerC (c : Char) : Char := foldC c

def upperL (l : List Char) : List Char := l.map upperC

def lowerStr (s : String) : String := String.mk (s.data.map lowerC)

/-- Python `str.strip` (whitespace removed from both ends). -/
def pyStripL (l : List Char) : List Char :=
  ((l.dropWhile isSpaceC).reverse.dropWhile isSpaceC).reverse

def pyStrip (s : String) : String := String.mk (pyStripL s.data)

/-- Python `str.zfill 2` on the captured item index. -/
def zfill2 (s : String) : String :=
  if s.length ≥ 2 then s else String.mk (List.replicate (2 - s.length) '0' ++ s.data)

/-! ## Generic matcher building blocks -/

/-- Consume a literal (case-insensitively); returns the rest on success. -/
def eatLit : List Char → List Char → Option (List Char)
  | [], s => some s
  | _ :: _, [] => none
  | p :: ps, c :: cs => if ciEq c p then eatLit ps cs else none

/-- `\s*` (maximal munch; exact whenever the following pattern element
cannot start with whitespace). -/
def dropS (s : List Char) : List Char := s.dropWhile isSpaceC

/-- `\s+` with maximal munch (exact under the same proviso as `dropS`). -/
def eatS1 : List Char → Option (List Char)
  | [] => none
  | c :: t => if isSpaceC c then some (dropS t) else none

/-- Consume one exact character. -/
def eatCh (x : Char) : List Char → Option (List Char)
  | [] => none
  | c :: t => if c = x then some t else none

/-- Greedy run of class characters, possibly empty (`cls*`). -/
def takeCls (cls : Char → Bool) (s : List Char) : List Char × List Char :=
  (s.takeWhile cls, s.dropWhile cls)

/-- Greedy run of class characters, at least one (`cls+`).  Exact without
backtracking whenever the following pattern element cannot match a class
character. -/
def takeCls1 (cls : Char → Bool) (s : List Char) : Option (List Char × List Char) :=
  match s with
  | [] => none
  | c :: t => if cls c then some (c :: t.takeWhile cls, t.dropWhile cls) else none

/-- Lazy `(.+?)` under `re.DOTALL`: consume at least one character, then
stop at the earliest position where the lookahead holds. -/
def lazyAny (look : List Char → Bool) : List Char → Option (List Char × List Char)
  | [] => none
  | c :: t =>
    if look t then some ([c], t)
    else
      match lazyAny look t with
      | some (g, r) => some (c :: g, r)
      | none => none

/-- Lazy `(cls+?)`: like `lazyAny` but every consumed character must be in
the class. -/
def lazyCls (cls : Char → Bool) (look : List Char → Bool) :
    List Char → Option (List Char × List Char)
  | [] => none
  | c :: t =>
    if cls c then
      if look t then some ([c], t)
      else
        match lazyCls cls look t with
        | some (g, r) => some (c :: g, r)
        | none => none
    else none

/-- `\s*` immediately followed by a lazy group: the engine first commits
maximal whitespace to `\s*` and, when the lazy group cannot match there,
gives whitespace back one character at a time.  `wsRev` is the reversed
whitespace run that `\s*` swallowed; `t` the text after it. -/
def lazyAnyBT (look : List Char → Bool) :
    List Char → List Char → Option (List Char × List Char)
  | wsRev, t =>
    match lazyAny look t with
    | some r => some r
    | none =>
      match wsRev with
      | [] => none
      | w :: ws => lazyAnyBT look ws (w :: t)

/-- `\s*` followed by a lazy class group, with the same backtracking. -/
def lazyClsBT (cls : Char → Bool) (look : List Char → Bool) :
    List Char → List Char → Option (List Char × List Char)
  | wsRev, t =>
    match lazyCls cls look t with
    | some r => some r
    | none =>
      match wsRev with
      | [] => none
      | w :: ws => lazyClsBT cls look ws (w :: t)

/-- `$` without `re.MULTILINE`: end of input or just before one final
newline. -/
def endNoMulti (s : List Char) : Bool := s = [] || s = ['\n']

/-! ## Pattern literals (from `_compile_patterns`) -/

def litResiduo : List Char := "Resíduo".data
def litClasse : List Char := "Classe".data
def litEstado : List Char := "Estado".data
def litFisico : List Char := "Físico".data
def litQtde : List Char := "Qtde".data
def litComposicao : List Char := "Composição".data
def litAproximada : List Char := "Aproximada".data
def litMetodo : List Char := "Método".data
def litUtilizado : List Char := "Utilizado".data
def litCor : List Char := "Cor".data
def litCheiro : List Char := "Cheiro".data
def litAspecto : List Char := "Aspecto".data
def litAcond : List Char := "Acondicionamento".data
def litDestino : List Char := "Destino".data
def litOII : List Char := "OII".data

/-! ## The item anchor pattern `residuo_linha`

`(\d{1,2})\s+Resíduo\s*:\s*([A-Z]\d{3})\s*-\s*(.+?)(?=\n[A-Z]|\n\n|Classe\s*:|$)`
compiled with `re.MULTILINE | re.IGNORECASE | re.DOTALL`.

Every element of the pattern looks only at the suffix starting at the
match position (no `^`, `\b` or lookbehind), so matching a position of a
slice `text[i:]` agrees with matching the same position of `text`; the
whole segmentation is therefore defined over suffixes. -/

/-- Captured groups of one `residuo_linha` match together with the text
remaining after group 0 (the lookahead is not consumed). -/
structure AnchorG where
  g1 : List Char
  g2 : List Char
  g3 : List Char
  rest : List Char

/-- Lookahead `(?=\n[A-Z]|\n\n|Classe\s*:|$)` under
`re.IGNORECASE | re.MULTILINE` (so `[A-Z]` also matches lowercase and `$`
matches before every newline). -/
def lookAnchor (s : List Char) : Bool :=
  (match s with
   | '\n' :: c :: _ => isAsciiLetter c
   | _ => false) ||
  (match s with
   | '\n' :: '\n' :: _ => true
   | _ => false) ||
  (match eatLit litClasse s with
   | some r => (match dropS r with
     | ':' :: _ => true
     | _ => false)
   | none => false) ||
  (s.isEmpty || s.head? = some '\n')

/-- The anchor pattern after the index group `(\d{1,2})` has been fixed to
`g1`: `\s+Resíduo\s*:\s*([A-Z]\d{3})\s*-\s*(.+?)(?=…)`. -/
def anchorAfterIdx (g1 : List Char) (s : List Char) : Option AnchorG :=
  match eatS1 s with
  | none => none
  | some s1 =>
    match eatLit litResiduo s1 with
    | none => none
    | some s2 =>
      match eatCh ':' (dropS s2) with
      | none => none
      | some s3 =>
        match dropS s3 with
        | c :: d1 :: d2 :: d3 :: s4 =>
          if isAsciiLetter c && d1.isDigit && d2.isDigit && d3.isDigit then
            match dropS s4 with
            | '-' :: s5 =>
              match lazyAnyBT lookAnchor ((s5.takeWhile isSpaceC).reverse)
                  (s5.dropWhile isSpaceC) with
              | some (g3, rest) => some ⟨g1, [c, d1, d2, d3], g3, rest⟩
              | none => none
            | _ => none
          else none
        | _ => none

/-- Match `residuo_linha` at the start of the given suffix.  `(\d{1,2})`
is greedy: two digits are tried first and one digit on failure. -/
def matchAnchorAt : List Char → Option AnchorG
  | [] => none
  | a :: t =>
    if a.isDigit then
      match t with
      | b :: t2 =>
        if b.isDigit then
          match anchorAfterIdx [a, b] t2 with
          | some r => some r
          | none => anchorAfterIdx [a] t
        else anchorAfterIdx [a] t
      | [] => none
    else none

/-- Leftmost match of the anchor in a suffix: offset of the match start
plus the match data (`re.finditer` / `re.search` scan order). -/
def searchAnchor : List Char → Option (Nat × AnchorG)
  | [] => none
  | c :: t =>
    match matchAnchorAt (c :: t) with
    | some a => some (0, a)
    | none =>
      match searchAnchor t with
      | some (j, a) => some (j + 1, a)
      | none => none

/-! Length facts needed for termination of the match enumeration. -/

theorem eatLit_le : ∀ p s r, eatLit p s = some r → r.length ≤ s.length := by
  intro p
  induction p with
  | nil => intro s r h; cases h; exact Nat.le_refl _
  | cons c cs ih =>
    intro s r h
    cases s with
    | nil => cases h
    | cons x xs =>
      simp only [eatLit] at h
      split at h
      · exact Nat.le_trans (ih xs r h) (Nat.le_succ _)
      · cases h

theorem dropS_le (s : List Char) : (dropS s).length ≤ s.length := by
  simpa [dropS] using s.dropWhile_sublist isSpaceC |>.length_le

theorem eatS1_lt : ∀ s r, eatS1 s = some r → r.length < s.length := by
  intro s r h
  cases s with
  | nil => cases h
  | cons c t =>
    simp only [eatS1] at h
    split at h
    · cases h
      exact Nat.lt_succ_of_le (dropS_le t)
    · cases h

theorem eatCh_lt : ∀ x s r, eatCh x s = some r → r.length < s.length := by
  intro x s r h
  cases s with
  | nil => cases h
  | cons c t =>
    simp only [eatCh] at h
    split at h
    · cases h; exact Nat.lt_succ_self _
    · cases h

theorem lazyAny_le (look : List Char → Bool) :
    ∀ s g r, lazyAny look s = some (g, r) → r.length ≤ s.length := by
  intro s
  induction s with
  | nil => intro g r h; cases h
  | cons c t ih =>
    intro g r h
    simp only [lazyAny] at h
    split at h
    · injection h with h2
      injection h2 with hg hr
      subst hg; subst hr
      exact Nat.le_succ _
    · split at h
      · next g2 r2 hrec =>
        injection h with h2
        injection h2 with hg hr
        subst hg; subst hr
        exact Nat.le_trans (ih g2 r2 hrec) (Nat.le_succ _)
      · cases h

theorem lazyAnyBT_le (look : List Char → Bool) :
    ∀ wsRev t g r, lazyAnyBT look wsRev t = some (g, r) →
      r.length ≤ wsRev.length + t.length := by
  intro wsRev
  induction wsRev with
  | nil =>
    intro t g r h
    simp only [lazyAnyBT] at h
    split at h
    · next p hla =>
      injection h with h2
      rw [h2] at hla
      simpa using lazyAny_le look t _ _ hla
    · cases h
  | cons w ws ih =>
    intro t g r h
    simp only [lazyAnyBT] at h
    split at h
    · next p hla =>
      injection h with h2
      rw [h2] at hla
      calc r.length ≤ t.length := lazyAny_le look t _ _ hla
        _ ≤ (w :: ws).length + t.length := Nat.le_add_left _ _
    · have := ih (w :: t) g r h
      simp only [List.length_cons] at this ⊢
      omega

theorem takeDrop_len (p : Char → Bool) (l : List Char) :
    (l.takeWhile p).length + (l.dropWhile p).length = l.length := by
  rw [← List.length_append, List.takeWhile_append_dropWhile]

theorem anchorAfterIdx_lt (g1 : List Char) :
    ∀ s a, anchorAfterIdx g1 s = some a → a.rest.length < s.length := by
  intro s a h
  unfold anchorAfterIdx at h
  split at h
  · cases h
  next s1 h1 =>
  split at h
  · cases h
  next s2 h2 =>
  split at h
  · cases h
  next s3 h3 =>
  split at h
  case _ c d1 d2 d3 s4 h4 =>
    split at h
    · split at h
      case _ s5 h5 =>
        split at h
        case _ g3 rest h6 =>
          injection h with h7
          subst h7
          show rest.length < s.length
          have hlt1 : s1.length < s.length := eatS1_lt s s1 h1
          have hle2 : s2.length ≤ s1.length := eatLit_le _ s1 s2 h2
          have hlt3 : s3.length < s2.length :=
            Nat.lt_of_lt_of_le (eatCh_lt ':' (dropS s2) s3 h3) (dropS_le s2)
          have hle4 : (c :: d1 :: d2 :: d3 :: s4).length ≤ s3.length :=
            h4 ▸ dropS_le s3
          have hle5 : ('-' :: s5).length ≤ s4.length := h5 ▸ dropS_le s4
          have hr := lazyAnyBT_le lookAnchor _ _ _ _ h6
          have hsplit := takeDrop_len isSpaceC s5
          simp only [List.length_cons, List.length_reverse] at hle4 hle5 hr
          omega
        · cases h
      · cases h
    · cases h
  · cases h

theorem matchAnchorAt_lt :
    ∀ s a, matchAnchorAt s = some a → a.rest.length < s.length := by
  intro s a h
  cases s with
  | nil => cases h
  | cons x t =>
    simp only [matchAnchorAt] at h
    split at h
    · cases t with
      | nil => cases h
      | cons b t2 =>
        simp only at h
        split at h
        · split at h
          · next r h2 =>
            injection h with h7
            rw [h7] at h2
            have := anchorAfterIdx_lt [x, b] t2 a h2
            simp only [List.length_cons] at this ⊢
            omega
          · have := anchorAfterIdx_lt [x] (b :: t2) a h
            simp only [List.length_cons] at this ⊢
            omega
        · have := anchorAfterIdx_lt [x] (b :: t2) a h
          simp only [List.length_cons] at this ⊢
          omega
    · cases h

theorem searchAnchor_matchAt :
    ∀ s j a, searchAnchor s = some (j, a) →
      matchAnchorAt (s.drop j) = some a := by
  intro s
  induction s with
  | nil =>
    intro j a h
    simp only [searchAnchor] at h
    cases h
  | cons c t ih =>
    intro j a h
    simp only [searchAnchor] at h
    split at h
    · next a2 hm =>
      injection h with h2
      injection h2 with h3 h4
      rw [← h4]
      subst h3
      simpa using hm
    · split at h
      · next j2 a2 hs =>
        injection h with h2
        injection h2 with h3 h4
        rw [← h4, ← h3]
        simpa using ih j2 a2 hs
      · cases h

theorem searchAnchor_lt :
    ∀ s j a, searchAnchor s = some (j, a) →
      a.rest.length < (s.drop j).length := by
  intro s j a h
  exact matchAnchorAt_lt _ a (searchAnchor_matchAt s j a h)

theorem searchAnchor_drop_lt :
    ∀ s j a, searchAnchor s = some (j, a) → j < s.length := by
  intro s j a h
  by_contra hge
  push_neg at hge
  have hdrop : s.drop j = [] := List.drop_eq_nil_of_le hge
  have := searchAnchor_matchAt s j a h
  rw [hdrop] at this
  cases this

/-! ## Segmentation (`_extract_residuos_enhanced`, lines 611-635)

`finditer` enumeration of anchors, then for each anchor the block end
position: start of the first anchor match in `text[start + len0:]` when
one exists, else `min(start + 2000, len(text))`. -/

/-- Search for the anchor at or after absolute position `i` of `s`,
returning the absolute match position. -/
def findAnchorIdx (s : List Char) (i : Nat) : Option (Nat × AnchorG) :=
  match searchAnchor (s.drop i) with
  | some (j, a) => some (i + j, a)
  | none => none

/-- Length of group 0 of the anchor matched at absolute position `p`. -/
def anchorLen (s : List Char) (p : Nat) (a : AnchorG) : Nat :=
  (s.drop p).length - a.rest.length

theorem findAnchorIdx_ge : ∀ s i p a, findAnchorIdx s i = some (p, a) → i ≤ p := by
  intro s i p a h
  simp only [findAnchorIdx] at h
  cases hs : searchAnchor (s.drop i) with
  | none => rw [hs] at h; cases h
  | some q =>
    rw [hs] at h
    cases q; cases h
    exact Nat.le_add_right _ _

theorem findAnchorIdx_len_pos :
    ∀ s i p a, findAnchorIdx s i = some (p, a) →
      0 < anchorLen s p a ∧ p < s.length := by
  intro s i p a h
  simp only [findAnchorIdx] at h
  cases hs : searchAnchor (s.drop i) with
  | none => rw [hs] at h; cases h
  | some q =>
    rw [hs] at h
    obtain ⟨j, a2⟩ := q
    injection h with h2
    injection h2 with hp ha
    subst hp
    subst ha
    have hlt := searchAnchor_lt (s.drop i) j a2 hs
    have hjlt := searchAnchor_drop_lt (s.drop i) j a2 hs
    rw [List.drop_drop] at hlt
    constructor
    · have : a2.rest.length < (s.drop (i + j)).length := by
        simpa [Nat.add_comm] using hlt
      unfold anchorLen
      omega
    · have hdlen : (s.drop i).length = s.length - i := List.length_drop i s
      omega

/-- Fuelled worker for the `finditer` enumeration; every step advances by
at least one character (`findAnchorIdx_len_pos`), so any fuel of at least
`s.length + 1 - i` is sufficient. -/
def anchorsFromAux : Nat → List Char → Nat → List (Nat × AnchorG)
  | 0, _, _ => []
  | fuel + 1, s, i =>
    match findAnchorIdx s i with
    | none => []
    | some (p, a) => (p, a) :: anchorsFromAux fuel s (p + anchorLen s p a)

/-- The `finditer` enumeration of `residuo_linha` matches starting at
absolute position `i`: the generator resumes scanning at the end of each
match (the lookahead is not part of group 0). -/
def anchorsFrom (s : List Char) (i : Nat) : List (Nat × AnchorG) :=
  anchorsFromAux (s.length + 1 - i) s i

/-- Block end for the anchor at `p` with group-0 length `len`, mirroring
the source: the inner `finditer` over the slice `text[p+len:]` stops at
its first match (`next_candidate` loop) giving
`end = p + len + next.start()`, and with no match
`end = min(p + 2000, len(text))`. -/
def segBlockEnd (s : List Char) (p : Nat) (a : AnchorG) : Nat :=
  match searchAnchor (s.drop (p + anchorLen s p a)) with
  | some (j, _) => p + anchorLen s p a + j
  | none => min (p + 2000) s.length

/-- Segmenter output: one `(start, stop, match)` triple per anchor. -/
def segmentBlocks (s : List Char) : List (Nat × Nat × AnchorG) :=
  (anchorsFrom s 0).map (fun pa => (pa.1, segBlockEnd s pa.1 pa.2, pa.2))

/-! ## Field extraction patterns (`_extract_structured_fields`) -/

/-- `[IVX]` under `re.IGNORECASE`. -/
def isIVX (c : Char) : Bool := foldC c = 'i' || foldC c = 'v' || foldC c = 'x'

/-- `[AB]` under `re.IGNORECASE`. -/
def isAB (c : Char) : Bool := foldC c = 'a' || foldC c = 'b'

/-- `[I/O]` under `re.IGNORECASE`. -/
def isIOslash (c : Char) : Bool := foldC c = 'i' || foldC c = 'o' || c = '/'

/-- `[0-9.,]`. -/
def isNumPunct (c : Char) : Bool := c.isDigit || c = '.' || c = ','

/-- Class of group 5 of `classe_detalhada`: `[a-zA-Z/\s]`. -/
def isUnitCls (c : Char) : Bool := isAsciiLetter c || c = '/' || isSpaceC c

/-- Groups of one `classe_detalhada` match. -/
structure ClasseDet where
  g1 : List Char
  g2 : List Char
  g3 : List Char
  g4 : List Char
  g5 : List Char

/-- Lookahead `(?=\n|Composição|$)` of `classe_detalhada`
(`re.IGNORECASE`, no `re.MULTILINE`). -/
def lookClasseDet (s : List Char) : Bool :=
  s.head? = some '\n' || (eatLit litComposicao s).isSome || endNoMulti s

/-- `O/?I` under `re.IGNORECASE`: the slash, if present, is taken
greedily and must be followed by the `I`; giving the slash back cannot
succeed because `I` never matches `/`. -/
def eatOI : List Char → Option (List Char)
  | [] => none
  | c :: rest =>
    if foldC c = 'o' then
      match rest with
      | '/' :: i :: t => if foldC i = 'i' then some t else none
      | '/' :: [] => none
      | i :: t => if foldC i = 'i' then some t else none
      | [] => none
    else none

/-- `classe_detalhada` after group 1:
`\s+Estado\s+Físico\s*:\s*(\w+)\s+O/?I\s*:\s*([I/O]+)\s+Qtde\s*:\s*([0-9.,]+)\s*([a-zA-Z/\s]+?)(?=…)`.
All greedy runs here are exact under maximal munch because the element
following each run cannot match a character of the run class
(`\w` vs `\s`, `[I/O]` vs `\s`, `[0-9.,]` vs `\s`/letters). -/
def classeDetTail (g1 : List Char) (s : List Char) : Option ClasseDet :=
  match eatS1 s with
  | none => none
  | some s1 =>
    match eatLit litEstado s1 with
    | none => none
    | some s2 =>
      match eatS1 s2 with
      | none => none
      | some s3 =>
        match eatLit litFisico s3 with
        | none => none
        | some s4 =>
          match eatCh ':' (dropS s4) with
          | none => none
          | some s5 =>
            match takeCls1 isWordC (dropS s5) with
            | none => none
            | some (g2, s6) =>
              match eatS1 s6 with
              | none => none
              | some s7 =>
                match eatOI s7 with
                | none => none
                | some s11 =>
                  match eatCh ':' (dropS s11) with
                  | none => none
                  | some s12 =>
                    match takeCls1 isIOslash (dropS s12) with
                    | none => none
                    | some (g3, s13) =>
                      match eatS1 s13 with
                      | none => none
                      | some s14 =>
                        match eatLit litQtde s14 with
                        | none => none
                        | some s15 =>
                          match eatCh ':' (dropS s15) with
                          | none => none
                          | some s16 =>
                            match takeCls1 isNumPunct (dropS s16) with
                            | none => none
                            | some (g4, s17) =>
                              match lazyClsBT isUnitCls lookClasseDet
                                  ((s17.takeWhile isSpaceC).reverse)
                                  (s17.dropWhile isSpaceC) with
                              | some (g5, _) => some ⟨g1, g2, g3, g4, g5⟩
                              | none => none

/-- Match `classe_detalhada`
(`Classe\s*:\s*([IVX]+[AB]?)\s+Estado\s+Físico\s*:…`) at a position.
Group 1 is a greedy `[IVX]+` run (shortening it cannot help: the freed
character is in `[IVX]`, matching neither `[AB]` nor `\s`) followed by an
optional `[AB]` that is taken greedily and given back on failure. -/
def matchClasseDet (s : List Char) : Option ClasseDet :=
  match eatLit litClasse s with
  | none => none
  | some r =>
    match eatCh ':' (dropS r) with
    | none => none
    | some r2 =>
      match takeCls1 isIVX (dropS r2) with
      | none => none
      | some (run, rest) =>
        match rest with
        | c :: rest2 =>
          if isAB c then
            match classeDetTail (run ++ [c]) rest2 with
            | some x => some x
            | none => classeDetTail run rest
          else classeDetTail run rest
        | [] => classeDetTail run []

/-- Leftmost-match scan (`re.search`): try every position left to right,
including the final empty suffix. -/
def searchM {α : Type} (f : List Char → Option α) : List Char → Option α
  | [] => f []
  | c :: t =>
    match f (c :: t) with
    | some a => some a
    | none => searchM f t

/-- Lookahead `(?=\s*Método\s+Utilizado|$)` of `composicao`. -/
def lookComp (s : List Char) : Bool :=
  (match eatLit litMetodo (dropS s) with
   | some r =>
     (match eatS1 r with
      | some r2 => (eatLit litUtilizado r2).isSome
      | none => false)
   | none => false) || endNoMulti s

/-- `composicao`: `Composição\s+Aproximada\s*:\s*(.+?)(?=\s*Método\s+Utilizado|$)`. -/
def matchComposicao (s : List Char) : Option (List Char) :=
  match eatLit litComposicao s with
  | none => none
  | some s1 =>
    match eatS1 s1 with
    | none => none
    | some s2 =>
      match eatLit litAproximada s2 with
      | none => none
      | some s3 =>
        match eatCh ':' (dropS s3) with
        | none => none
        | some s4 =>
          match lazyAnyBT lookComp ((s4.takeWhile isSpaceC).reverse)
              (s4.dropWhile isSpaceC) with
          | some (g, _) => some g
          | none => none

/-- Optional `[,\.]` (exact: if present and taken the next element is
`\s*` + literal, which cannot match the punctuation itself). -/
def optPunct : List Char → List Char
  | ',' :: t => t
  | '.' :: t => t
  | s => s

/-- Lookahead `(?=\s*Cor[,\.]?\s*Cheiro|$)` of `metodo`. -/
def lookMet (s : List Char) : Bool :=
  (match eatLit litCor (dropS s) with
   | some r => (eatLit litCheiro (dropS (optPunct r))).isSome
   | none => false) || endNoMulti s

/-- `metodo`: `Método\s+Utilizado\s*:\s*(.+?)(?=\s*Cor[,\.]?\s*Cheiro|$)`. -/
def matchMetodo (s : List Char) : Option (List Char) :=
  match eatLit litMetodo s with
  | none => none
  | some s1 =>
    match eatS1 s1 with
    | none => none
    | some s2 =>
      match eatLit litUtilizado s2 with
      | none => none
      | some s3 =>
        match eatCh ':' (dropS s3) with
        | none => none
        | some s4 =>
          match lazyAnyBT lookMet ((s4.takeWhile isSpaceC).reverse)
              (s4.dropWhile isSpaceC) with
          | some (g, _) => some g
          | none => none

/-- Lookahead `(?=\s*Acondicionamento|$)` of `cor_cheiro_aspecto`. -/
def lookCor (s : List Char) : Bool :=
  (eatLit litAcond (dropS s)).isSome || endNoMulti s

/-- `cor_cheiro_aspecto`:
`Cor[,\.]?\s*Cheiro[,\.]?\s*Aspecto\s*:\s*(.+?)(?=\s*Acondicionamento|$)`. -/
def matchCorCheiro (s : List Char) : Option (List Char) :=
  match eatLit litCor s with
  | none => none
  | some s1 =>
    match eatLit litCheiro (dropS (optPunct s1)) with
    | none => none
    | some s2 =>
      match eatLit litAspecto (dropS (optPunct s2)) with
      | none => none
      | some s3 =>
        match eatCh ':' (dropS s3) with
        | none => none
        | some s4 =>
          match lazyAnyBT lookCor ((s4.takeWhile isSpaceC).reverse)
              (s4.dropWhile isSpaceC) with
          | some (g, _) => some g
          | none => none

/-- Lookahead `(?=\n\s*\d+\s+Resíduo|$)` of `destino`. -/
def lookDest (s : List Char) : Bool :=
  (match s with
   | '\n' :: r =>
     (match takeCls1 Char.isDigit (dropS r) with
      | some (_, r3) =>
        (match eatS1 r3 with
         | some r4 => (eatLit litResiduo r4).isSome
         | none => false)
      | none => false)
   | _ => false) || endNoMulti s

/-- `destino`: `Destino\s*:\s*(T\d{2})\s*-\s*(.+?)(?=\n\s*\d+\s+Resíduo|$)`. -/
def matchDestino (s : List Char) : Option (List Char × List Char) :=
  match eatLit litDestino s with
  | none => none
  | some s1 =>
    match eatCh ':' (dropS s1) with
    | none => none
    | some s2 =>
      match dropS s2 with
      | c :: d1 :: d2 :: s3 =>
        if foldC c = 't' && d1.isDigit && d2.isDigit then
          match dropS s3 with
          | '-' :: s4 =>
            match lazyAnyBT lookDest ((s4.takeWhile isSpaceC).reverse)
                (s4.dropWhile isSpaceC) with
            | some (g2, _) => some ([c, d1, d2], g2)
            | none => none
          | _ => none
        else none
      | _ => none

/-- Unit group of `quantidade_unidade`: `\s+([a-zA-Z]+/?[a-zA-Z]*)`. -/
def qtdeUnitTail (g1 : List Char) (s : List Char) :
    Option (List Char × List Char) :=
  match eatS1 s with
  | none => none
  | some r =>
    match takeCls1 isAsciiLetter r with
    | none => none
    | some (u1, r2) =>
      match r2 with
      | '/' :: r3 => some (g1, u1 ++ '/' :: r3.takeWhile isAsciiLetter)
      | _ => some (g1, u1)

/-- `quantidade_unidade`: `Qtde\s*:\s*(\d+[.,]?\d*)\s+([a-zA-Z]+/?[a-zA-Z]*)`.
For group 1 the engine tries the variant with `[.,]\d*` first and falls
back to the bare digit run (a freed digit can never satisfy `\s+`). -/
def matchQtdeU (s : List Char) : Option (List Char × List Char) :=
  match eatLit litQtde s with
  | none => none
  | some s1 =>
    match eatCh ':' (dropS s1) with
    | none => none
    | some s2 =>
      match takeCls1 Char.isDigit (dropS s2) with
      | none => none
      | some (ds, r1) =>
        match r1 with
        | p :: r2 =>
          if p = '.' || p = ',' then
            match qtdeUnitTail (ds ++ p :: r2.takeWhile Char.isDigit)
                (r2.dropWhile Char.isDigit) with
            | some x => some x
            | none => qtdeUnitTail ds r1
          else qtdeUnitTail ds r1
        | [] => qtdeUnitTail ds []

/-- Run of `[IVX]`-class `i` letters capped at `cap` (`I{1,cap}` greedy). -/
def takeIs (cap : Nat) : List Char → List Char × List Char
  | [] => ([], [])
  | c :: t =>
    if cap = 0 then ([], c :: t)
    else if foldC c = 'i' then
      match takeIs (cap - 1) t with
      | (g, r) => (c :: g, r)
    else ([], c :: t)

/-- Fallback `classe`: `classe\s*:\s*(I{1,3}[AB]?|I{1,2}\s*[AB])`.
Whenever at least one `I` is present the first alternative succeeds (it
has no mandatory element after the optional `[AB]`), so the second
alternative is reachable only when the first fails, and then it fails as
well; both are kept for fidelity. -/
def matchClasseFb (s : List Char) : Option (List Char) :=
  match eatLit litClasse s with
  | none => none
  | some r =>
    match eatCh ':' (dropS r) with
    | none => none
    | some r2 =>
      let body := dropS r2
      match takeIs 3 body with
      | ([], _) =>
        -- second alternative `I{1,2}\s*[AB]` also needs a leading I
        none
      | (g, rest) =>
        match rest with
        | c :: _ => if isAB c then some (g ++ [c]) else some g
        | [] => some g

/-- Fallback `estado_fisico`: `Estado\s+Físico\s*:\s*(\w+)`. -/
def matchEstadoFb (s : List Char) : Option (List Char) :=
  match eatLit litEstado s with
  | none => none
  | some s1 =>
    match eatS1 s1 with
    | none => none
    | some s2 =>
      match eatLit litFisico s2 with
      | none => none
      | some s3 =>
        match eatCh ':' (dropS s3) with
        | none => none
        | some s4 =>
          match takeCls1 isWordC (dropS s4) with
          | some (g, _) => some g
          | none => none

/-- Fallback `oii`: `OII\s*:\s*([^\s]+)`. -/
def matchOiiFb (s : List Char) : Option (List Char) :=
  match eatLit litOII s with
  | none => none
  | some s1 =>
    match eatCh ':' (dropS s1) with
    | none => none
    | some s2 =>
      match takeCls1 (fun c => !(isSpaceC c)) (dropS s2) with
      | some (g, _) => some g
      | none => none

/-- `re.findall(r'E\d{2}', block)`: non-overlapping leftmost matches, case
sensitive. -/
def findAllE : List Char → List String
  | 'E' :: d1 :: d2 :: t2 =>
    if d1.isDigit && d2.isDigit then String.mk ['E', d1, d2] :: findAllE t2
    else findAllE (d1 :: d2 :: t2)
  | _ :: t => findAllE t
  | [] => []

/-- The dedup-preserving-first-seen loop of the source. -/
def uniqueKeepFirst (l : List String) : List String :=
  l.foldl (fun acc c => if acc.contains c then acc else acc ++ [c]) []

/-- Exact-case prefix test (`str.split` is case sensitive). -/
def startsWithX : List Char → List Char → Bool
  | [], _ => true
  | _ :: _, [] => false
  | p :: ps, c :: cs => p = c && startsWithX ps cs

/-- Text before the first exact occurrence of the needle
(`desc.split(needle)[0]`). -/
def beforeLit (needle : List Char) : List Char → List Char
  | [] => []
  | c :: t => if startsWithX needle (c :: t) then [] else c :: beforeLit needle t

/-- Lookahead `(?=\s+[A-Z]|$)` of the per-code description pattern
(`re.IGNORECASE`, so `[A-Z]` matches any ASCII letter). -/
def lookDesc (s : List Char) : Bool :=
  (match eatS1 s with
   | some r =>
     (match r with
      | c :: _ => isAsciiLetter c
      | [] => false)
   | none => false) || endNoMulti s

/-- Per-code description pattern
`rf'{code}\s*-\s*([^A-Z]+?)(?=\s+[A-Z]|$)'` with `re.IGNORECASE`
(so `[^A-Z]` rejects both letter cases). -/
def matchDescFor (code : List Char) (s : List Char) : Option (List Char) :=
  match eatLit code s with
  | none => none
  | some r =>
    match eatCh '-' (dropS r) with
    | none => none
    | some r2 =>
      match lazyClsBT (fun c => !(isAsciiLetter c)) lookDesc
          ((r2.takeWhile isSpaceC).reverse) (r2.dropWhile isSpaceC) with
      | some (g, _) => some g
      | none => none

/-- Description paired with one packaging code: search, strip, cut at the
literal `Acondicionamento`, strip again; empty string when nothing
matches. -/
def descForCode (block : List Char) (code : String) : String :=
  match searchM (matchDescFor code.data) block with
  | some g => String.mk (pyStripL (beforeLit litAcond (pyStripL g)))
  | none => ""

/-- `,` to `.` replacement applied to quantities at extraction time. -/
def commaToDot (c : Char) : Char := if c = ',' then '.' else c

/-- `unidade_raw.split()[0] if unidade_raw else ''` applied to the
stripped group 5. -/
def firstTokenOf (g5 : List Char) : String :=
  let r := pyStripL g5
  if r.isEmpty then "" else String.mk (r.takeWhile (fun c => !(isSpaceC c)))

/-- The fields dictionary produced by `_extract_structured_fields`; a
`none` models an absent key. -/
structure RawFields where
  classe_residuo : Option String := none
  estado_fisico : Option String := none
  oii : Option String := none
  quantidade : Option String := none
  unidade : Option String := none
  composicao_aproximada : Option String := none
  metodo_utilizado : Option String := none
  cor_cheiro_aspecto : Option String := none
  acondicionamento_codigos : Option String := none
  acondicionamento_descricoes : Option String := none
  destino_codigo : Option String := none
  destino_descricao : Option String := none

/-- First part of `_extract_structured_fields`: the compound
`classe_detalhada` attempt and its per-field fallbacks. -/
def esfCompound (block : List Char) : RawFields :=
  match searchM matchClasseDet block with
  | some cd =>
    { classe_residuo := some (String.mk cd.g1)
      estado_fisico := some (String.mk (upperL cd.g2))
      oii := some (String.mk cd.g3)
      quantidade := some (String.mk (cd.g4.map commaToDot))
      unidade := some (firstTokenOf cd.g5) }
  | none =>
    let f0 : RawFields := {}
    let f0 :=
      match searchM matchQtdeU block with
      | some (q, u) =>
        { f0 with quantidade := some (String.mk (q.map commaToDot))
                  unidade := some (String.mk u) }
      | none => f0
    let f0 :=
      match searchM matchClasseFb block with
      | some g => { f0 with classe_residuo := some (String.mk g) }
      | none => f0
    let f0 :=
      match searchM matchEstadoFb block with
      | some g => { f0 with estado_fisico := some (String.mk (upperL g)) }
      | none => f0
    match searchM matchOiiFb block with
    | some g => { f0 with oii := some (String.mk g) }
    | none => f0

/-- The free-text fields of `_extract_structured_fields`
(`composicao`, `metodo`, `cor_cheiro_aspecto`). -/
def esfTextStage (block : List Char) (f1 : RawFields) : RawFields :=
  let f2 :=
    match searchM matchComposicao block with
    | some g => { f1 with composicao_aproximada := some (pyStrip (String.mk g)) }
    | none => f1
  let f3 :=
    match searchM matchMetodo block with
    | some g => { f2 with metodo_utilizado := some (pyStrip (String.mk g)) }
    | none => f2
  match searchM matchCorCheiro block with
  | some g => { f3 with cor_cheiro_aspecto := some (pyStrip (String.mk g)) }
  | none => f3

/-- The packaging part of `_extract_structured_fields` (lines 721-745):
all `E\d{2}` occurrences, dedup keeping first-seen order, comma-joined;
the per-code descriptions joined after dropping the empty ones
(`' | '.join(filter(None, descricoes))`). -/
def esfAcondStage (block : List Char) (f4 : RawFields) : RawFields :=
  let codes := uniqueKeepFirst (findAllE block)
  if codes.isEmpty then f4
  else
    { f4 with
      acondicionamento_codigos := some (String.intercalate "," codes)
      acondicionamento_descricoes :=
        some (String.intercalate " | "
          (((codes.map (descForCode block))).filter (fun d => d ≠ ""))) }

/-- The `destino` part of `_extract_structured_fields` (lines 747-751). -/
def esfDestinoStage (block : List Char) (f5 : RawFields) : RawFields :=
  match searchM matchDestino block with
  | some (g1, g2) =>
    { f5 with destino_codigo := some (String.mk g1)
              destino_descricao := some (pyStrip (String.mk g2)) }
  | none => f5

/-- `_extract_structured_fields` (lines 668-753). -/
def extractStructuredFields (block : List Char) : RawFields :=
  esfDestinoStage block (esfAcondStage block (esfTextStage block (esfCompound block)))

/-! ## Item records and `_create_enhanced_item_dict`

The record keeps the scalar per-item fields of the source dictionary.
The denormalized entity/metadata columns copied verbatim from the
document metadata, the constant `pagina_origem`/`tipo_documento`/
`data_validade` fields and the wall-clock `updated_at` timestamp are not
modelled: no claim of this development mentions them and they do not
influence segmentation, field extraction or validation.  The legacy
`codigo_residuo` key is kept because `validate_extraction` reads it. -/

structure Item where
  numero_documento : String := ""
  item_numero : String := ""
  numero_residuo : String := ""
  codigo_residuo : String := ""
  descricao_residuo : String := ""
  classe_residuo : String := ""
  estado_fisico : String := ""
  oii : String := ""
  quantidade : String := ""
  unidade : String := ""
  composicao_aproximada : String := ""
  metodo_utilizado : String := ""
  cor_cheiro_aspecto : String := ""
  acondicionamento_codigos : String := ""
  acondicionamento_descricoes : String := ""
  destino_codigo : String := ""
  destino_descricao : String := ""
  raw_fragment : String := ""

/-- `_create_enhanced_item_dict` (lines 755-863): basic validation
(truthy residue number and description), then the dictionary with empty
string defaults. -/
def mkEnhancedItem (docId itemNum numeroRes desc raw : String)
    (f : RawFields) : Option Item :=
  if numeroRes = "" || desc = "" then none
  else some
    { numero_documento := docId
      item_numero := zfill2 itemNum
      numero_residuo := numeroRes
      descricao_residuo := desc
      classe_residuo := f.classe_residuo.getD ""
      estado_fisico := f.estado_fisico.getD ""
      oii := f.oii.getD ""
      quantidade := f.quantidade.getD ""
      unidade := f.unidade.getD ""
      composicao_aproximada := f.composicao_aproximada.getD ""
      metodo_utilizado := f.metodo_utilizado.getD ""
      cor_cheiro_aspecto := f.cor_cheiro_aspecto.getD ""
      acondicionamento_codigos := f.acondicionamento_codigos.getD ""
      acondicionamento_descricoes := f.acondicionamento_descricoes.getD ""
      destino_codigo := f.destino_codigo.getD ""
      destino_descricao := f.destino_descricao.getD ""
      raw_fragment := raw }

/-- `_extract_residuos_enhanced` (lines 591-666): segment, extract the
structured fields of each block, build the item dictionary. -/
def extractResiduosEnhanced (text docId : String) : List Item :=
  (segmentBlocks text.data).filterMap (fun b =>
    let block := (text.data.drop b.1).take (b.2.1 - b.1)
    let f := extractStructuredFields block
    mkEnhancedItem docId (String.mk b.2.2.g1) (String.mk b.2.2.g2)
      (pyStrip (String.mk b.2.2.g3)) (String.mk (block.take 500)) f)

/-! ## `validate_extraction` (lines 865-926) -/

/-- `re.match(r'^[A-Z]\d{3}$', s)`: anchored shape check; the default `$`
also matches just before one final newline. -/
def matchCodeRe (s : String) : Bool :=
  match s.data with
  | c :: d1 :: d2 :: d3 :: rest =>
    isUpperAZ c && d1.isDigit && d2.isDigit && d3.isDigit &&
      (rest = [] || rest = ['\n'])
  | _ => false

/-- `re.match(r'^\d{2}\.\d{2}\.\d{3}$', s)` with the same `$` semantics. -/
def matchLegacyRe (s : String) : Bool :=
  match s.data with
  | a :: b :: p1 :: e :: f :: p2 :: g :: h :: i :: rest =>
    a.isDigit && b.isDigit && p1 = '.' && e.isDigit && f.isDigit &&
      p2 = '.' && g.isDigit && h.isDigit && i.isDigit &&
      (rest = [] || rest = ['\n'])
  | _ => false

/-- The keep/drop decision of the validation loop: a truthy
`numero_residuo` must match the new-schema shape, otherwise a truthy
`codigo_residuo` must match the legacy shape, otherwise drop. -/
def keepItemB (it : Item) : Bool :=
  if it.numero_residuo ≠ "" then matchCodeRe it.numero_residuo
  else if it.codigo_residuo ≠ "" then matchLegacyRe it.codigo_residuo
  else false

/-- Worker for `re.sub(r'\s+', ' ', descricao)`: the flag records whether
the previous character belonged to a whitespace run already replaced. -/
def collapseWsAux : Bool → List Char → List Char
  | _, [] => []
  | prevSp, c :: t =>
    if isSpaceC c then
      if prevSp then collapseWsAux true t else ' ' :: collapseWsAux true t
    else c :: collapseWsAux false t

/-- `re.sub(r'\s+', ' ', descricao)`: every maximal whitespace run becomes
one space. -/
def collapseWs (l : List Char) : List Char := collapseWsAux false l

/-- Description cleaning: collapse whitespace, strip, truncate to 500. -/
def cleanDescricao (s : String) : String :=
  String.mk ((pyStripL (collapseWs s.data)).take 500)

/-- The `unidade_map.get(unidade, unidade)` table lookup. -/
def unidadeMapGet (u : String) : String :=
  if u = "kg" then "kg" else if u = "ton" then "t" else if u = "t" then "t"
  else if u = "m3" then "m³" else if u = "m³" then "m³"
  else if u = "l" then "L" else if u = "litro" then "L"
  else if u = "litros" then "L"
  else if u = "unidade" then "un" else if u = "unidades" then "un"
  else if u = "un" then "un"
  else if u = "peça" then "un" else if u = "peças" then "un"
  else if u = "pç" then "un"
  else u

/-- Membership in the unit canonicalization table. -/
def inUnidadeMap (u : String) : Bool :=
  u = "kg" || u = "ton" || u = "t" || u = "m3" || u = "m³" || u = "l" ||
  u = "litro" || u = "litros" || u = "unidade" || u = "unidades" ||
  u = "un" || u = "peça" || u = "peças" || u = "pç"

def dropTrailingZeros (l : List Char) : List Char :=
  (l.reverse.dropWhile (fun c => c = '0')).reverse

/-- `str(float(s))` for plain decimal strings.  Python `float` accepts
further forms (exponents, `inf`, `nan`, underscores) and `str` switches
to exponent notation for very large or very small magnitudes; outside
the plain-decimal short-value domain this model returns `none` and the
caller keeps the original string, exactly as the `except` branch of the
source does for unparseable input.  Within the domain (at most 15
significant digits, magnitude within the plain-notation thresholds)
`str(float(s))` is the canonical shortest form computed here because
decimals of at most 15 significant digits round-trip through binary
doubles injectively. -/
def pyFloatNormalize (s : String) : Option String :=
  let l := pyStripL s.data
  let neg := l.head? = some '-'
  let l1 := match l with
    | '-' :: t => t
    | '+' :: t => t
    | t => t
  let ip := l1.takeWhile Char.isDigit
  let r1 := l1.dropWhile Char.isDigit
  let parsed : Option (List Char × List Char) :=
    match r1 with
    | [] => some (ip, [])
    | '.' :: r2 =>
      if r2.dropWhile Char.isDigit = [] then some (ip, r2.takeWhile Char.isDigit)
      else none
    | _ => none
  match parsed with
  | none => none
  | some (ipRaw, fpRaw) =>
    if ipRaw = [] && fpRaw = [] then none
    else
      let ipz := ipRaw.dropWhile (fun c => c = '0')
      let ipc := if ipz = [] then ['0'] else ipz
      let fpc := dropTrailingZeros fpRaw
      let sig := if ipz = [] then (fpc.dropWhile (fun c => c = '0')).length
                 else ipz.length + fpc.length
      let leadF := if ipz = [] then (fpc.takeWhile (fun c => c = '0')).length
                   else 0
      if sig ≤ 15 && ipc.length ≤ 15 && leadF ≤ 3 then
        some (String.mk ((if neg then ['-'] else []) ++ ipc ++
          '.' :: (if fpc = [] then ['0'] else fpc)))
      else none

/-- The per-item mutation of kept items: clean the description, lowercase
and map the unit, normalize the quantity through `float` keeping the
original on parse failure. -/
def normalizeItemV (it : Item) : Item :=
  let d := if it.descricao_residuo ≠ "" then cleanDescricao it.descricao_residuo
           else it.descricao_residuo
  let u := unidadeMapGet (lowerStr it.unidade)
  let q := if it.quantidade ≠ "" then
             match pyFloatNormalize it.quantidade with
             | some v => v
             | none => it.quantidade
           else it.quantidade
  { it with descricao_residuo := d, unidade := u, quantidade := q }

/-- `validate_extraction`: the loop keeps an item iff `keepItemB` holds
and appends the mutated item. -/
def validateExtraction : List Item → List Item
  | [] => []
  | it :: rest =>
    if keepItemB it then normalizeItemV it :: validateExtraction rest
    else validateExtraction rest

/-- Segmentation, field extraction, then normalization/validation: the
pipeline of claim C1. -/
def cadriPipeline (text docId : String) : List Item :=
  validateExtraction (extractResiduosEnhanced text docId)

/-! ## Spec-side predicates and concrete inputs for the claims -/

/-- Exact full match of `[A-Z]\d{3}` (the shape as the claim words it). -/
def isFullCodeMatch (s : String) : Bool :=
  match s.data with
  | [c, d1, d2, d3] => isUpperAZ c && d1.isDigit && d2.isDigit && d3.isDigit
  | _ => false

/-- Exact full match of `\d{2}\.\d{2}\.\d{3}`. -/
def isFullLegacyMatch (s : String) : Bool :=
  match s.data with
  | [a, b, '.', e, f, '.', g, h, i] =>
    a.isDigit && b.isDigit && e.isDigit && f.isDigit && g.isDigit &&
      h.isDigit && i.isDigit
  | _ => false

/-- Amended code shape: `[A-Z]\d{3}`, optionally followed by one final
newline (where the `$` of `re.match` also matches). -/
def specCodeAmended (s : String) : Bool :=
  match s.data with
  | c :: d1 :: d2 :: d3 :: rest =>
    isUpperAZ c && d1.isDigit && d2.isDigit && d3.isDigit &&
      (rest.isEmpty || rest = ['\n'])
  | _ => false

/-- Amended legacy shape `\d{2}\.\d{2}\.\d{3}` with the same optional
final newline. -/
def specLegacyAmended (s : String) : Bool :=
  match s.data with
  | a :: b :: p1 :: e :: f :: p2 :: g :: h :: i :: rest =>
    a.isDigit && b.isDigit && p1 = '.' && e.isDigit && f.isDigit &&
      p2 = '.' && g.isDigit && h.isDigit && i.isDigit &&
      (rest.isEmpty || rest = ['\n'])
  | _ => false

/-- The amended keep predicate of the Normalizer/Validator: a nonempty
residue code decides alone; with no residue code a nonempty legacy code
decides; with neither the record is dropped. -/
def specKeepB (it : Item) : Bool :=
  if it.numero_residuo ≠ "" then specCodeAmended it.numero_residuo
  else if it.codigo_residuo ≠ "" then specLegacyAmended it.codigo_residuo
  else false

/-- The end-to-end scenario text of claim C1. -/
def c1Text : String :=
  "01 Resíduo : D099 - Óleo usado ... Classe : I Estado Físico: LIQUIDO O/I: O Qtde: 50 t/ano"

/-- A raw record whose residue code carries one trailing newline. -/
def c2CexItem : Item := { numero_residuo := "D099\n", descricao_residuo := "óleo" }

/-- A validated record with an uppercase unit outside the table. -/
def c6CexItem : Item :=
  { numero_residuo := "D099", descricao_residuo := "óleo", unidade := "XYZ" }

/-- A validated record with a lowercase unit outside the table. -/
def c6WitItem : Item :=
  { numero_residuo := "F001", descricao_residuo := "solvente", unidade := "barril" }

/-- A block whose first packaging code has no pairable description while
the second one has. -/
def c7Block : List Char := "E01 x E02 - 9 z".data

/-- A two-anchor text for the segmentation witness. -/
def c3WText : String := "1 Resíduo : A111 - a\n2 Resíduo : B222 - b"

/-- Block spans (start, stop) produced by the segmenter. -/
def blockSpans (s : List Char) : List (Nat × Nat) :=
  (segmentBlocks s).map (fun b => (b.1, b.2.1))

/-- Anchor start positions in `finditer` order. -/
def anchorStarts (s : List Char) : List Nat :=
  (anchorsFrom s 0).map Prod.fst

/-! # Theorems -/

/-! ## Shared lemmas about the validator -/

theorem matchCodeRe_eq_spec (s : String) : matchCodeRe s = specCodeAmended s := by
  obtain ⟨l⟩ := s
  rcases l with _ | ⟨c, _ | ⟨d1, _ | ⟨d2, _ | ⟨d3, rest⟩⟩⟩⟩ <;> try rfl
  cases rest <;> rfl

theorem matchLegacyRe_eq_spec (s : String) : matchLegacyRe s = specLegacyAmended s := by
  obtain ⟨l⟩ := s
  rcases l with _ | ⟨a, _ | ⟨b, _ | ⟨p1, _ | ⟨e, _ | ⟨f, _ |
    ⟨p2, _ | ⟨g, _ | ⟨h, _ | ⟨i, rest⟩⟩⟩⟩⟩⟩⟩⟩⟩ <;> try rfl
  cases rest <;> rfl

theorem keepItemB_eq_spec (it : Item) : keepItemB it = specKeepB it := by
  unfold keepItemB specKeepB
  rw [matchCodeRe_eq_spec, matchLegacyRe_eq_spec]

/-! ## Claim C1 -/

/-- C1, counterexample: on the scenario text the pipeline (segmentation,
field extraction, normalization/validation) does NOT produce the record
the claim states — the validated quantity is the float round trip
`"50.0"` (not `"50"`) and the validated unit is `"t/ano"` (group 5 of
`classe_detalhada` captures `t/ano`, which contains no whitespace, so
`split()[0]` keeps it whole and the lowercase unit map has no such key),
not `"t"`. -/
theorem C1_pipeline_counterexample :
    ¬ ((cadriPipeline c1Text "16001234").map (fun r =>
        (r.item_numero, r.numero_residuo, r.classe_residuo, r.estado_fisico,
          r.oii, r.quantidade, r.unidade)) =
      [("01", "D099", "I", "LIQUIDO", "O", "50", "t")]) := by
  intro h
  have h2 : (cadriPipeline c1Text "16001234").map (fun r =>
      (r.item_numero, r.numero_residuo, r.classe_residuo, r.estado_fisico,
        r.oii, r.quantidade, r.unidade)) =
      [("01", "D099", "I", "LIQUIDO", "O", "50.0", "t/ano")] := rfl
  rw [h2] at h
  simp only [List.cons.injEq, Prod.mk.injEq] at h
  exact absurd h.1.2.2.2.2.2.1 (by decide)

/-- C1, amended: the pipeline yields exactly one validated record with
item index `"01"`, residue code `"D099"`, class `"I"`, physical state
`"LIQUIDO"`, organic/inorganic flag `"O"`, quantity `"50.0"` (the
extracted `"50"` normalized through `str(float(…))`) and unit `"t/ano"`
(the captured unit token, left unchanged by the canonicalization table). -/
theorem C1_pipeline_amended :
    (cadriPipeline c1Text "16001234").map (fun r =>
        (r.item_numero, r.numero_residuo, r.classe_residuo, r.estado_fisico,
          r.oii, r.quantidade, r.unidade)) =
      [("01", "D099", "I", "LIQUIDO", "O", "50.0", "t/ano")] := rfl

/-! ## Claim C2 -/

/-- C2, counterexample: the raw record whose residue code is
`"D099\n"` is kept by `validate_extraction` (the `$` of `re.match`
matches before the final newline) although the code does not match
`[A-Z]\d{3}` exactly and no legacy code is present, contradicting the
keep-iff-shape claim as stated. -/
theorem C2_validator_counterexample :
    (validateExtraction [c2CexItem]).length = 1 ∧
    isFullCodeMatch c2CexItem.numero_residuo = false ∧
    c2CexItem.codigo_residuo = "" := by
  refine ⟨rfl, rfl, rfl⟩

/-- C2, amended: `validate_extraction` keeps a record iff its residue
code matches `[A-Z]\d{3}` optionally followed by one trailing newline
(Python `re.match` + `$` semantics) or, when the residue code is empty,
its legacy code matches `\d{2}\.\d{2}\.\d{3}` with the same optional
trailing newline; every other record is dropped, and the kept records
are exactly the per-item normalizations of the surviving records in
order, so dropping one record never affects its siblings. -/
theorem C2_validator_amended (items : List Item) :
    validateExtraction items = (items.filter specKeepB).map normalizeItemV := by
  induction items with
  | nil => rfl
  | cons it rest ih =>
    unfold validateExtraction
    rw [keepItemB_eq_spec it, List.filter_cons]
    cases h : specKeepB it
    · simp [h, ih]
    · simp [h, ih]

/-! ## Claim C6 -/

theorem unidadeMapGet_eq_self (u : String) (h : inUnidadeMap u = false) :
    unidadeMapGet u = u := by
  unfold inUnidadeMap at h
  simp only [Bool.or_eq_false_iff, decide_eq_false_iff_not] at h
  obtain ⟨⟨⟨⟨⟨⟨⟨⟨⟨⟨⟨⟨⟨h1, h2⟩, h3⟩, h4⟩, h5⟩, h6⟩, h7⟩, h8⟩, h9⟩, h10⟩,
    h11⟩, h12⟩, h13⟩, h14⟩ := h
  unfold unidadeMapGet
  rw [if_neg h1, if_neg h2, if_neg h3, if_neg h4, if_neg h5, if_neg h6,
    if_neg h7, if_neg h8, if_neg h9, if_neg h10, if_neg h11, if_neg h12,
    if_neg h13, if_neg h14]

/-- C6, counterexample: the extracted unit `"XYZ"` is not an entry of
the canonicalization table, yet the validated record stores `"xyz"`,
not the extracted string unchanged: `validate_extraction` lowercases
the unit before the table lookup. -/
theorem C6_unit_counterexample :
    inUnidadeMap c6CexItem.unidade = false ∧
    (validateExtraction [c6CexItem]).map (fun r => r.unidade) = ["xyz"] ∧
    c6CexItem.unidade = "XYZ" ∧ ("xyz" : String) ≠ "XYZ" := by
  refine ⟨rfl, rfl, rfl, by decide⟩

/-- C6, amended: for every item record whose lowercased unit is not an
entry of the canonicalization table, the validated record stores the
lowercased extracted unit (so a unit that is already lowercase passes
through unchanged, and any other unrecognized unit is rewritten only by
lowercasing). -/
theorem C6_unit_amended (it : Item)
    (h : inUnidadeMap (lowerStr it.unidade) = false) :
    ∀ v ∈ validateExtraction [it], v.unidade = lowerStr it.unidade := by
  intro v hv
  unfold validateExtraction validateExtraction at hv
  by_cases hk : keepItemB it
  · rw [if_pos hk] at hv
    simp only [List.mem_singleton] at hv
    subst hv
    show unidadeMapGet (lowerStr it.unidade) = lowerStr it.unidade
    exact unidadeMapGet_eq_self _ h
  · rw [if_neg hk] at hv
    cases hv

/-- C6, amended, witness: a concrete unrecognized lowercase unit. -/
theorem C6_unit_amended_witness :
    inUnidadeMap (lowerStr c6WitItem.unidade) = false ∧
    (∀ v ∈ validateExtraction [c6WitItem], v.unidade = lowerStr c6WitItem.unidade) :=
  ⟨by decide, C6_unit_amended c6WitItem (by decide)⟩

/-! ## Claim C7 -/

theorem esfDestinoStage_acond_cod (block : List Char) (f : RawFields) :
    (esfDestinoStage block f).acondicionamento_codigos =
      f.acondicionamento_codigos := by
  unfold esfDestinoStage
  split <;> rfl

theorem esfDestinoStage_acond_desc (block : List Char) (f : RawFields) :
    (esfDestinoStage block f).acondicionamento_descricoes =
      f.acondicionamento_descricoes := by
  unfold esfDestinoStage
  split <;> rfl

theorem esfAcondStage_cod (block : List Char) (f : RawFields) :
    (esfAcondStage block f).acondicionamento_codigos =
      (if (uniqueKeepFirst (findAllE block)).isEmpty then
        f.acondicionamento_codigos
       else some (String.intercalate "," (uniqueKeepFirst (findAllE block)))) := by
  unfold esfAcondStage
  by_cases h : (uniqueKeepFirst (findAllE block)).isEmpty <;> simp [h]

theorem esfAcondStage_desc (block : List Char) (f : RawFields) :
    (esfAcondStage block f).acondicionamento_descricoes =
      (if (uniqueKeepFirst (findAllE block)).isEmpty then
        f.acondicionamento_descricoes
       else some (String.intercalate " | "
         (((uniqueKeepFirst (findAllE block)).map (descForCode block)).filter
           (fun d => d ≠ "")))) := by
  unfold esfAcondStage
  by_cases h : (uniqueKeepFirst (findAllE block)).isEmpty <;> simp [h]

theorem esfTextStage_acond_cod (block : List Char) (f : RawFields) :
    (esfTextStage block f).acondicionamento_codigos =
      f.acondicionamento_codigos := by
  unfold esfTextStage
  split <;> split <;> split <;> rfl

theorem esfTextStage_acond_desc (block : List Char) (f : RawFields) :
    (esfTextStage block f).acondicionamento_descricoes =
      f.acondicionamento_descricoes := by
  unfold esfTextStage
  split <;> split <;> split <;> rfl

theorem esfCompound_acond_cod (block : List Char) :
    (esfCompound block).acondicionamento_codigos = none := by
  unfold esfCompound
  split
  · rfl
  · split <;> split <;> split <;> split <;> rfl

theorem esfCompound_acond_desc (block : List Char) :
    (esfCompound block).acondicionamento_descricoes = none := by
  unfold esfCompound
  split
  · rfl
  · split <;> split <;> split <;> split <;> rfl

theorem ukfAux_nodup :
    ∀ (l acc : List String), acc.Nodup →
      (List.foldl (fun acc c => if acc.contains c then acc else acc ++ [c])
        acc l).Nodup := by
  intro l
  induction l with
  | nil => intro acc h; simpa using h
  | cons c t ih =>
    intro acc h
    simp only [List.foldl_cons]
    by_cases hc : acc.contains c
    · rw [if_pos hc]
      exact ih acc h
    · rw [if_neg hc]
      apply ih
      have hmem : c ∉ acc := by simpa using hc
      rw [← List.concat_eq_append]
      exact List.Nodup.concat hmem h

theorem ukfAux_mem :
    ∀ (l acc : List String) (x : String),
      (x ∈ List.foldl (fun acc c => if acc.contains c then acc else acc ++ [c])
        acc l ↔ x ∈ acc ∨ x ∈ l) := by
  intro l
  induction l with
  | nil => intro acc x; simp
  | cons c t ih =>
    intro acc x
    simp only [List.foldl_cons]
    by_cases hc : acc.contains c
    · rw [if_pos hc]
      rw [ih acc x]
      have hcm : c ∈ acc := by simpa using hc
      simp only [List.mem_cons]
      constructor
      · rintro (h | h)
        · exact Or.inl h
        · exact Or.inr (Or.inr h)
      · rintro (h | h | h)
        · exact Or.inl h
        · exact Or.inl (h ▸ hcm)
        · exact Or.inr h
    · rw [if_neg hc]
      rw [ih (acc ++ [c]) x]
      simp only [List.mem_append, List.mem_singleton, List.mem_cons]
      tauto

theorem uniqueKeepFirst_nodup (l : List String) : (uniqueKeepFirst l).Nodup := by
  unfold uniqueKeepFirst
  exact ukfAux_nodup l [] List.nodup_nil

theorem uniqueKeepFirst_mem (l : List String) (x : String) :
    x ∈ uniqueKeepFirst l ↔ x ∈ l := by
  unfold uniqueKeepFirst
  rw [ukfAux_mem l [] x]
  simp

/-- C7, counterexample: on the block `E01 x E02 - 9 z` the extractor
stores the two codes `E01,E02` but the single description string `9`,
which is the description paired with the SECOND code (`E01` has no
pairable description and the empty string is removed by
`filter(None, …)` before joining), so the first stored description does
not belong to the first code. -/
theorem C7_packaging_counterexample :
    (extractStructuredFields c7Block).acondicionamento_codigos = some "E01,E02" ∧
    (extractStructuredFields c7Block).acondicionamento_descricoes = some "9" ∧
    descForCode c7Block "E01" = "" ∧
    descForCode c7Block "E02" = "9" := by
  refine ⟨rfl, rfl, rfl, rfl⟩

/-- C7, amended: for every block the stored packaging codes are exactly
the `E\d{2}` occurrences deduplicated preserving first-seen order (no
duplicates, and the same set of codes as the raw occurrence list), and
the stored description string is the join of the per-code descriptions
in code order AFTER the empty ones are dropped — so descriptions align
one-to-one with codes only when every code yields a nonempty
description. -/
theorem C7_packaging_amended (block : List Char) :
    (uniqueKeepFirst (findAllE block)).Nodup ∧
    (∀ c, c ∈ uniqueKeepFirst (findAllE block) ↔ c ∈ findAllE block) ∧
    (extractStructuredFields block).acondicionamento_codigos =
      (if (uniqueKeepFirst (findAllE block)).isEmpty then none
       else some (String.intercalate "," (uniqueKeepFirst (findAllE block)))) ∧
    (extractStructuredFields block).acondicionamento_descricoes =
      (if (uniqueKeepFirst (findAllE block)).isEmpty then none
       else some (String.intercalate " | "
         (((uniqueKeepFirst (findAllE block)).map (descForCode block)).filter
           (fun d => d ≠ "")))) := by
  refine ⟨uniqueKeepFirst_nodup _, fun c => uniqueKeepFirst_mem _ c, ?_, ?_⟩
  · unfold extractStructuredFields
    rw [esfDestinoStage_acond_cod, esfAcondStage_cod, esfTextStage_acond_cod,
      esfCompound_acond_cod]
  · unfold extractStructuredFields
    rw [esfDestinoStage_acond_desc, esfAcondStage_desc, esfTextStage_acond_desc,
      esfCompound_acond_desc]

/-! ## Claim C3 -/

theorem anchorsFromAux_adjacent :
    ∀ (fuel : Nat) (s : List Char) (i k : Nat) (x y : Nat × AnchorG),
      s.length + 1 ≤ fuel + i →
      (anchorsFromAux fuel s i)[k]? = some x →
      (anchorsFromAux fuel s i)[k + 1]? = some y →
      segBlockEnd s x.1 x.2 = y.1 := by
  intro fuel
  induction fuel with
  | zero =>
    intro s i k x y hf hx hy
    simp [anchorsFromAux] at hx
  | succ fuel ih =>
    intro s i k x y hf hx hy
    simp only [anchorsFromAux] at hx hy
    cases hfi : findAnchorIdx s i with
    | none =>
      rw [hfi] at hx
      simp at hx
    | some pa =>
      obtain ⟨p, a⟩ := pa
      rw [hfi] at hx hy
      have hge := findAnchorIdx_ge s i p a hfi
      have hlen := findAnchorIdx_len_pos s i p a hfi
      have hf2 : s.length + 1 ≤ fuel + (p + anchorLen s p a) := by omega
      cases k with
      | zero =>
        simp only [List.getElem?_cons_zero] at hx
        injection hx with hx2
        subst hx2
        simp only [List.getElem?_cons_succ] at hy
        cases fuel with
        | zero =>
          simp [anchorsFromAux] at hy
        | succ fuel2 =>
          simp only [anchorsFromAux] at hy
          cases hfi2 : findAnchorIdx s (p + anchorLen s p a) with
          | none =>
            rw [hfi2] at hy
            simp at hy
          | some pa2 =>
            obtain ⟨p2, a2⟩ := pa2
            rw [hfi2] at hy
            simp only [List.getElem?_cons_zero] at hy
            injection hy with hy2
            subst hy2
            show segBlockEnd s p a = p2
            unfold segBlockEnd
            unfold findAnchorIdx at hfi2
            cases hs : searchAnchor (s.drop (p + anchorLen s p a)) with
            | none => rw [hs] at hfi2; cases hfi2
            | some q =>
              obtain ⟨j, a3⟩ := q
              rw [hs] at hfi2
              injection hfi2 with h2
              injection h2 with hp2 ha2
      | succ k2 =>
        simp only [List.getElem?_cons_succ] at hx hy
        exact ih s (p + anchorLen s p a) k2 x y hf2 hx hy

theorem anchorsFromAux_last :
    ∀ (fuel : Nat) (s : List Char) (i k : Nat) (x : Nat × AnchorG),
      s.length + 1 ≤ fuel + i →
      (anchorsFromAux fuel s i)[k]? = some x →
      (anchorsFromAux fuel s i)[k + 1]? = none →
      segBlockEnd s x.1 x.2 = min (x.1 + 2000) s.length := by
  intro fuel
  induction fuel with
  | zero =>
    intro s i k x hf hx hy
    simp [anchorsFromAux] at hx
  | succ fuel ih =>
    intro s i k x hf hx hy
    simp only [anchorsFromAux] at hx hy
    cases hfi : findAnchorIdx s i with
    | none =>
      rw [hfi] at hx
      simp at hx
    | some pa =>
      obtain ⟨p, a⟩ := pa
      rw [hfi] at hx hy
      have hge := findAnchorIdx_ge s i p a hfi
      have hlen := findAnchorIdx_len_pos s i p a hfi
      have hf2 : s.length + 1 ≤ fuel + (p + anchorLen s p a) := by omega
      cases k with
      | zero =>
        simp only [List.getElem?_cons_zero] at hx
        injection hx with hx2
        subst hx2
        simp only [List.getElem?_cons_succ] at hy
        cases fuel with
        | zero =>
          -- fuel exhausted: impossible, the found anchor sits inside the
          -- text while the fuel bound forces the scan start past its end
          exact absurd rfl (by omega : ¬(0 : Nat) = 0)
        | succ fuel2 =>
          simp only [anchorsFromAux] at hy
          cases hfi2 : findAnchorIdx s (p + anchorLen s p a) with
          | some pa2 =>
            rw [hfi2] at hy
            simp at hy
          | none =>
            show segBlockEnd s p a = min (p + 2000) s.length
            unfold segBlockEnd
            unfold findAnchorIdx at hfi2
            cases hs : searchAnchor (s.drop (p + anchorLen s p a)) with
            | none => simp
            | some q =>
              obtain ⟨j, a3⟩ := q
              rw [hs] at hfi2
              simp at hfi2
      | succ k2 =>
        simp only [List.getElem?_cons_succ] at hx hy
        exact ih s (p + anchorLen s p a) k2 x hf2 hx hy

/-- C3: for every document text and every block the segmenter produces,
the block ends exactly at the start position of the next anchor match of
the `finditer` enumeration, and — when no next anchor exists — at
`min(block start + 2000, end of text)`.  The inner search of the source
runs over the slice `text[start + len0:]`; the anchor pattern has no
`^`, `\b` or lookbehind, so matching a slice position coincides with
matching the same absolute position, which is what `segBlockEnd`
encodes. -/
theorem C3_segmenter_blocks (s : List Char) (k st en : Nat)
    (h : (blockSpans s)[k]? = some (st, en)) :
    en = match (anchorStarts s)[k + 1]? with
         | some p2 => p2
         | none => min (st + 2000) s.length := by
  unfold blockSpans at h
  rw [List.getElem?_map] at h
  cases hb : (segmentBlocks s)[k]? with
  | none => rw [hb] at h; cases h
  | some b =>
    rw [hb] at h
    injection h with h2
    unfold segmentBlocks at hb
    rw [List.getElem?_map] at hb
    cases ha : (anchorsFrom s 0)[k]? with
    | none => rw [ha] at hb; cases hb
    | some pa =>
      rw [ha] at hb
      injection hb with hb2
      obtain ⟨p0, a0⟩ := pa
      subst hb2
      injection h2 with hst hen
      subst hst
      subst hen
      unfold anchorStarts
      rw [List.getElem?_map]
      unfold anchorsFrom at ha ⊢
      cases ha2 : (anchorsFromAux (s.length + 1 - 0) s 0)[k + 1]? with
      | some pa2 =>
        obtain ⟨p2, a2⟩ := pa2
        show segBlockEnd s p0 a0 = p2
        exact anchorsFromAux_adjacent (s.length + 1 - 0) s 0 k (p0, a0) (p2, a2)
          (by omega) ha ha2
      | none =>
        show segBlockEnd s p0 a0 = min (p0 + 2000) s.length
        exact anchorsFromAux_last (s.length + 1 - 0) s 0 k (p0, a0)
          (by omega) ha ha2

/-- C3, witness: on a concrete two-anchor text, the first block ends at
the second anchor start (21) and the second block ends at
`min(21 + 2000, 41) = 41`. -/
theorem C3_segmenter_blocks_witness :
    (21 : Nat) = match (anchorStarts c3WText.data)[0 + 1]? with
      | some p2 => p2
      | none => min (0 + 2000) c3WText.data.length :=
  C3_segmenter_blocks c3WText.data 0 0 21 (by decide)

/-! ## `CSVStore.upsert` (`store_csv.py`, lines 30-85)

A row is modelled as its cells, column name to value.  `upsert` stamps
the batch with one `updated_at` value (`df_new['updated_at'] = now`),
saves the batch verbatim when the existing table is empty, and otherwise
concatenates, applies `drop_duplicates(subset=keys, keep='last')` and
sorts by the key columns (`sort_values(by=keys)`); the claims proved
below do not depend on the sorting algorithm, only on the multiset of
rows, so a simple insertion sort stands in for the pandas sort. -/

def Row : Type := List (String × String)

def rowLookup (r : Row) (k : String) : Option String :=
  match r with
  | [] => none
  | (k2, v) :: rest => if k2 = k then some v else rowLookup rest k

/-- Column assignment: overwrite the cell when the column exists, append
it otherwise. -/
def setCell (r : Row) (k v : String) : Row :=
  match r with
  | [] => [(k, v)]
  | (k2, v2) :: rest =>
    if k2 = k then (k2, v) :: rest else (k2, v2) :: setCell rest k v

/-- The key tuple of a row under the given key columns. -/
def keyOf (keys : List String) (r : Row) : List (Option String) :=
  keys.map (rowLookup r)

/-- `drop_duplicates(subset=keys, keep='last')`: a row survives iff no
later row has the same key tuple. -/
def keepLast (keys : List String) : List Row → List Row
  | [] => []
  | r :: rs =>
    if rs.any (fun r2 => decide (keyOf keys r2 = keyOf keys r)) then
      keepLast keys rs
    else r :: keepLast keys rs

/-- Ordering of two cell values with missing values last (pandas places
NaN keys last when sorting ascending). -/
def optStrLeB : Option String → Option String → Bool
  | none, none => true
  | none, some _ => false
  | some _, none => true
  | some a, some b => a ≤ b

/-- Lexicographic ordering of key tuples. -/
def keyLeB : List (Option String) → List (Option String) → Bool
  | [], _ => true
  | _ :: _, [] => true
  | a :: as2, b :: bs => if a = b then keyLeB as2 bs else optStrLeB a b

def rowLeB (keys : List String) (a b : Row) : Bool :=
  keyLeB (keyOf keys a) (keyOf keys b)

def insertSorted (le : Row → Row → Bool) (r : Row) : List Row → List Row
  | [] => [r]
  | x :: xs => if le r x then r :: x :: xs else x :: insertSorted le r xs

def sortRows (le : Row → Row → Bool) : List Row → List Row
  | [] => []
  | x :: xs => insertSorted le x (sortRows le xs)

/-- `CSVStore.upsert`. -/
def csvUpsert (keys : List String) (existing batch : List Row)
    (now : String) : List Row :=
  if batch.isEmpty then existing
  else
    let b := batch.map (fun r => setCell r "updated_at" now)
    if existing.isEmpty then b
    else sortRows (rowLeB keys) (keepLast keys (existing ++ b))

/-- Key columns of the CADRI item sink (`_save_items_batch`). -/
def c9Keys : List String := ["numero_documento", "item_numero", "numero_residuo"]

def c9RowA : Row :=
  [("numero_documento", "1"), ("item_numero", "01"),
   ("numero_residuo", "D099"), ("quantidade", "5")]

def c9RowB : Row :=
  [("numero_documento", "1"), ("item_numero", "01"),
   ("numero_residuo", "D099"), ("quantidade", "7")]

/-! ## Claim C9 -/

theorem insertSorted_perm (le : Row → Row → Bool) (r : Row) (l : List Row) :
    List.Perm (insertSorted le r l) (r :: l) := by
  induction l with
  | nil => exact List.Perm.refl _
  | cons x xs ih =>
    unfold insertSorted
    by_cases h : le r x
    · rw [if_pos h]
    · rw [if_neg h]
      exact List.Perm.trans (List.Perm.cons x ih) (List.Perm.swap r x xs)

theorem sortRows_perm (le : Row → Row → Bool) :
    ∀ l : List Row, List.Perm (sortRows le l) l := by
  intro l
  induction l with
  | nil => exact List.Perm.refl _
  | cons x xs ih =>
    unfold sortRows
    exact List.Perm.trans (insertSorted_perm le x _) (List.Perm.cons x ih)

theorem keepLast_sublist (keys : List String) :
    ∀ l : List Row, List.Sublist (keepLast keys l) l := by
  intro l
  induction l with
  | nil => exact List.Sublist.refl _
  | cons r rs ih =>
    unfold keepLast
    by_cases h : rs.any (fun r2 => decide (keyOf keys r2 = keyOf keys r))
    · rw [if_pos h]
      exact ih.cons r
    · rw [if_neg h]
      exact ih.cons₂ r

theorem keepLast_ne_nil (keys : List String) :
    ∀ l : List Row, l ≠ [] → keepLast keys l ≠ [] := by
  intro l
  induction l with
  | nil => intro h; exact absurd rfl h
  | cons r rs ih =>
    intro _
    unfold keepLast
    by_cases h : rs.any (fun r2 => decide (keyOf keys r2 = keyOf keys r))
    · rw [if_pos h]
      apply ih
      intro hnil
      rw [hnil] at h
      simp at h
    · rw [if_neg h]
      exact List.cons_ne_nil _ _

theorem keepLast_filter (keys : List String) (t : List (Option String)) :
    ∀ l : List Row,
      (keepLast keys l).filter (fun r => decide (keyOf keys r = t)) =
        ((l.filter (fun r => decide (keyOf keys r = t))).getLast?).toList := by
  intro l
  induction l with
  | nil => rfl
  | cons r rs ih =>
    unfold keepLast
    by_cases hany : rs.any (fun r2 => decide (keyOf keys r2 = keyOf keys r))
    · rw [if_pos hany, ih, List.filter_cons]
      by_cases ht : keyOf keys r = t
      · rw [if_pos (by simpa using ht)]
        have hne : rs.filter (fun r2 => decide (keyOf keys r2 = t)) ≠ [] := by
          rw [List.any_eq_true] at hany
          obtain ⟨r2, hr2m, hr2k⟩ := hany
          have hk2 : keyOf keys r2 = t := by
            have := of_decide_eq_true hr2k
            rw [this, ht]
          intro hnil
          have := List.filter_eq_nil_iff.mp hnil r2 hr2m
          simp [hk2] at this
        cases hfe : rs.filter (fun r2 => decide (keyOf keys r2 = t)) with
        | nil => exact absurd hfe hne
        | cons a as2 => simp [List.getLast?_cons_cons]
      · rw [if_neg (by simpa using ht)]
    · rw [if_neg hany, List.filter_cons, List.filter_cons]
      have hany2 : ∀ a ∈ rs, ¬ (keyOf keys a = keyOf keys r) := by
        simpa using hany
      by_cases ht : keyOf keys r = t
      · rw [if_pos (by simpa using ht), if_pos (by simpa using ht)]
        have hfil : rs.filter (fun r2 => decide (keyOf keys r2 = t)) = [] := by
          rw [List.filter_eq_nil_iff]
          intro a ha
          simp only [decide_eq_true_eq]
          rw [← ht]
          exact hany2 a ha
        rw [ih, hfil]
        rfl
      · rw [if_neg (by simpa using ht), if_neg (by simpa using ht)]
        exact ih

theorem keepLast_keys_nodup (keys : List String) :
    ∀ l : List Row, ((keepLast keys l).map (keyOf keys)).Nodup := by
  intro l
  induction l with
  | nil => simp [keepLast]
  | cons r rs ih =>
    unfold keepLast
    by_cases hany : rs.any (fun r2 => decide (keyOf keys r2 = keyOf keys r))
    · rw [if_pos hany]
      exact ih
    · rw [if_neg hany]
      simp only [List.map_cons, List.nodup_cons]
      refine ⟨?_, ih⟩
      intro hmem
      rw [List.mem_map] at hmem
      obtain ⟨r2, hr2, hk⟩ := hmem
      have hr2rs : r2 ∈ rs := (keepLast_sublist keys rs).subset hr2
      have hany2 : ∀ a ∈ rs, ¬ (keyOf keys a = keyOf keys r) := by
        simpa using hany
      exact hany2 r2 hr2rs hk

theorem keepLast_keys_mem (keys : List String) (t : List (Option String)) :
    ∀ l : List Row,
      (t ∈ (keepLast keys l).map (keyOf keys) ↔ t ∈ l.map (keyOf keys)) := by
  intro l
  induction l with
  | nil => simp [keepLast]
  | cons r rs ih =>
    unfold keepLast
    by_cases hany : rs.any (fun r2 => decide (keyOf keys r2 = keyOf keys r))
    · rw [if_pos hany, ih]
      simp only [List.map_cons, List.mem_cons]
      constructor
      · exact Or.inr
      · rintro (h | h)
        · rw [List.any_eq_true] at hany
          obtain ⟨r2, hr2m, hr2k⟩ := hany
          have hk2 := of_decide_eq_true hr2k
          rw [List.mem_map]
          exact ⟨r2, hr2m, by rw [hk2, ← h]⟩
        · exact h
    · rw [if_neg hany]
      simp only [List.map_cons, List.mem_cons]
      rw [ih]

theorem length_eq_of_nodup_iff {α : Type} (A B : List α)
    (hA : A.Nodup) (hB : B.Nodup) (h : ∀ x, x ∈ A ↔ x ∈ B) :
    A.length = B.length := by
  have h1 : List.Subperm A B := hA.subperm (fun x hx => (h x).mp hx)
  have h2 : List.Subperm B A := hB.subperm (fun x hx => (h x).mpr hx)
  exact Nat.le_antisymm h1.length_le h2.length_le

theorem rowLookup_setCell_ne (k k2 v : String) (h : k2 ≠ k) :
    ∀ r : Row, rowLookup (setCell r k v) k2 = rowLookup r k2 := by
  intro r
  induction r with
  | nil =>
    simp only [setCell, rowLookup]
    rw [if_neg (fun he => h he.symm)]
  | cons cell rest ih =>
    obtain ⟨ck, cv⟩ := cell
    simp only [setCell]
    by_cases hck : ck = k
    · rw [if_pos hck]
      simp only [rowLookup]
      rw [if_neg (fun he : ck = k2 => h (he.symm.trans hck)),
        if_neg (fun he : ck = k2 => h (he.symm.trans hck))]
    · rw [if_neg hck]
      simp only [rowLookup]
      by_cases hck2 : ck = k2
      · rw [if_pos hck2, if_pos hck2]
      · rw [if_neg hck2, if_neg hck2]
        exact ih

theorem keyOf_setCell (keys : List String) (r : Row) (v : String)
    (h : ¬ "updated_at" ∈ keys) :
    keyOf keys (setCell r "updated_at" v) = keyOf keys r := by
  unfold keyOf
  apply List.map_congr_left
  intro k hk
  have hne : k ≠ "updated_at" := fun he => h (he ▸ hk)
  exact rowLookup_setCell_ne "updated_at" k v hne r

theorem keys_map_stamped (keys : List String) (b : List Row) (now : String)
    (hts : ¬ "updated_at" ∈ keys) :
    (b.map (fun r => setCell r "updated_at" now)).map (keyOf keys) =
      b.map (keyOf keys) := by
  rw [List.map_map]
  apply List.map_congr_left
  intro r _
  exact keyOf_setCell keys r now hts

/-- C9, counterexample: a single batch holding two records with equal
key values, flushed into an EMPTY store, is saved verbatim
(`if df_existing.empty: df_new.to_csv(...)`), leaving TWO stored rows
for that key instead of exactly one. -/
theorem C9_upsert_counterexample :
    (csvUpsert c9Keys [] [c9RowA, c9RowB] "t1").length = 2 ∧
    keyOf c9Keys c9RowA = keyOf c9Keys c9RowB := by
  refine ⟨rfl, rfl⟩

/-- C9, amended: when the target store already holds at least one row,
the upsert deduplicates on the key columns with last-write-wins: for
every key tuple the stored rows with that key are exactly the last
submitted row with that key (timestamp column stamped), so two records
with equal keys leave one row holding the later values; and re-flushing
a batch over the result adds no rows.  A batch flushed into an empty
store is saved verbatim, so duplicate keys inside that first batch
survive as separate rows. -/
theorem C9_upsert_amended (keys : List String) (ex b : List Row)
    (now1 now2 : String) (t : List (Option String))
    (hex : ex ≠ []) (hb : b ≠ []) (hts : ¬ "updated_at" ∈ keys) :
    (csvUpsert keys ex b now1).filter (fun r => decide (keyOf keys r = t)) =
      ((ex ++ b.map (fun r => setCell r "updated_at" now1)).filter
        (fun r => decide (keyOf keys r = t))).getLast?.toList ∧
    (csvUpsert keys (csvUpsert keys ex b now1) b now2).length =
      (csvUpsert keys ex b now1).length := by
  have hbE : b.isEmpty = false := by
    cases b with
    | nil => exact absurd rfl hb
    | cons x xs => rfl
  have hexE : ex.isEmpty = false := by
    cases ex with
    | nil => exact absurd rfl hex
    | cons x xs => rfl
  have hres1 : csvUpsert keys ex b now1 =
      sortRows (rowLeB keys)
        (keepLast keys (ex ++ b.map (fun r => setCell r "updated_at" now1))) := by
    unfold csvUpsert
    rw [hbE, hexE]
    rfl
  have hL1ne : ex ++ b.map (fun r => setCell r "updated_at" now1) ≠ [] := by
    cases ex with
    | nil => exact absurd rfl hex
    | cons x xs => exact List.cons_ne_nil _ _
  constructor
  · rw [hres1]
    have hperm :=
      (sortRows_perm (rowLeB keys)
        (keepLast keys (ex ++ b.map (fun r => setCell r "updated_at" now1)))).filter
        (fun r => decide (keyOf keys r = t))
    rw [keepLast_filter keys t] at hperm
    cases hgl : ((ex ++ b.map (fun r => setCell r "updated_at" now1)).filter
        (fun r => decide (keyOf keys r = t))).getLast? with
    | none =>
      rw [hgl] at hperm
      simpa using List.perm_nil.mp hperm
    | some rr =>
      rw [hgl] at hperm
      simpa using List.perm_singleton.mp hperm
  · have hres1_ne : csvUpsert keys ex b now1 ≠ [] := by
      rw [hres1]
      intro h0
      have hp := sortRows_perm (rowLeB keys)
        (keepLast keys (ex ++ b.map (fun r => setCell r "updated_at" now1)))
      rw [h0] at hp
      exact keepLast_ne_nil keys _ hL1ne (List.perm_nil.mp hp.symm)
    have hres1E : (csvUpsert keys ex b now1).isEmpty = false := by
      cases hc : csvUpsert keys ex b now1 with
      | nil => exact absurd hc hres1_ne
      | cons x xs => rfl
    have hres2 : csvUpsert keys (csvUpsert keys ex b now1) b now2 =
        sortRows (rowLeB keys)
          (keepLast keys ((csvUpsert keys ex b now1) ++
            b.map (fun r => setCell r "updated_at" now2))) := by
      conv_lhs => rw [csvUpsert]
      rw [hbE, hres1E]
      rfl
    rw [hres2, (sortRows_perm _ _).length_eq]
    have hBperm : List.Perm ((csvUpsert keys ex b now1).map (keyOf keys))
        ((keepLast keys (ex ++ b.map (fun r => setCell r "updated_at" now1))).map
          (keyOf keys)) := by
      rw [hres1]
      exact (sortRows_perm _ _).map _
    have hA := keepLast_keys_nodup keys
      ((csvUpsert keys ex b now1) ++ b.map (fun r => setCell r "updated_at" now2))
    have hB : ((csvUpsert keys ex b now1).map (keyOf keys)).Nodup :=
      hBperm.nodup_iff.mpr (keepLast_keys_nodup keys _)
    have hmm : ∀ x, (x ∈ ((keepLast keys ((csvUpsert keys ex b now1) ++
        b.map (fun r => setCell r "updated_at" now2))).map (keyOf keys)) ↔
        x ∈ (csvUpsert keys ex b now1).map (keyOf keys)) := by
      intro x
      rw [keepLast_keys_mem, List.map_append, List.mem_append,
        keys_map_stamped keys b now2 hts]
      constructor
      · rintro (h | h)
        · exact h
        · have hxL1 : x ∈ (ex ++ b.map (fun r => setCell r "updated_at" now1)).map
              (keyOf keys) := by
            rw [List.map_append, List.mem_append,
              keys_map_stamped keys b now1 hts]
            exact Or.inr h
          rw [← keepLast_keys_mem] at hxL1
          exact hBperm.mem_iff.mpr hxL1
      · intro h
        exact Or.inl h
    have hlen := length_eq_of_nodup_iff _ _ hA hB hmm
    simpa using hlen

/-- C9, amended, witness: a concrete nonempty store and batch. -/
theorem C9_upsert_amended_witness :
    (csvUpsert c9Keys [c9RowA] [c9RowB] "t1").filter
        (fun r => decide (keyOf c9Keys r = keyOf c9Keys c9RowA)) =
      (([c9RowA] ++ [c9RowB].map (fun r => setCell r "updated_at" "t1")).filter
        (fun r => decide (keyOf c9Keys r = keyOf c9Keys c9RowA))).getLast?.toList ∧
    (csvUpsert c9Keys (csvUpsert c9Keys [c9RowA] [c9RowB] "t1") [c9RowB] "t2").length =
      (csvUpsert c9Keys [c9RowA] [c9RowB] "t1").length :=
  C9_upsert_amended c9Keys [c9RowA] [c9RowB] "t1" "t2" (keyOf c9Keys c9RowA)
    (List.cons_ne_nil _ _) (List.cons_ne_nil _ _) (by decide)

/-! ## LLM parser embedding (src/src/llm_pdf_parser.py, src/src/schemas.py)

`_parse_llm_response` extracts a JSON span with `re.search` over the raw
response, repairs common datetime glitches with three `re.sub` passes,
parses it with `json.loads`, applies the structural fixups of lines
290-304 and validates with Pydantic.  We embed a JSON value type and a
deterministic recursive-descent parser for the `json.loads` grammar.
The number grammar is restricted to integer literals (a response using
float, NaN or Infinity literals is outside the modelled domain and the
parser rejects it); `\uXXXX` escapes for surrogate code units are
likewise rejected, since they are not Unicode scalar values. -/

def lbrace : Char := Char.ofNat 123

def rbrace : Char := Char.ofNat 125

inductive JVal where
  | jnull : JVal
  | jbool : Bool → JVal
  | jnum : Int → JVal
  | jstr : String → JVal
  | jarr : List JVal → JVal
  | jobj : List (String × JVal) → JVal

/-- JSON insignificant whitespace, as accepted by `json.loads`. -/
def jsonWs (c : Char) : Bool := c = ' ' || c = '\t' || c = '\n' || c = '\r'

def skipWs (l : List Char) : List Char := l.dropWhile jsonWs

def hexVal (c : Char) : Option Nat :=
  if '0' ≤ c ∧ c ≤ '9' then some (c.toNat - 48)
  else if 'a' ≤ c ∧ c ≤ 'f' then some (c.toNat - 87)
  else if 'A' ≤ c ∧ c ≤ 'F' then some (c.toNat - 55)
  else none

/-- JSON string body after the opening quote: ordinary characters,
escapes, closing quote.  Unescaped control characters are rejected, as
in strict-mode `json.loads`. -/
def parseStrAux : List Char → List Char → Option (String × List Char)
  | _, [] => none
  | acc, '"' :: t => some (String.mk acc.reverse, t)
  | acc, '\\' :: t =>
    match t with
    | '"' :: t2 => parseStrAux ('"' :: acc) t2
    | '\\' :: t2 => parseStrAux ('\\' :: acc) t2
    | '/' :: t2 => parseStrAux ('/' :: acc) t2
    | 'b' :: t2 => parseStrAux (Char.ofNat 8 :: acc) t2
    | 'f' :: t2 => parseStrAux (Char.ofNat 12 :: acc) t2
    | 'n' :: t2 => parseStrAux ('\n' :: acc) t2
    | 'r' :: t2 => parseStrAux ('\r' :: acc) t2
    | 't' :: t2 => parseStrAux ('\t' :: acc) t2
    | 'u' :: h1 :: h2 :: h3 :: h4 :: t2 =>
      match hexVal h1, hexVal h2, hexVal h3, hexVal h4 with
      | some a, some b, some c, some d =>
        let n := ((a * 16 + b) * 16 + c) * 16 + d
        if 55296 ≤ n ∧ n ≤ 57343 then none
        else parseStrAux (Char.ofNat n :: acc) t2
      | _, _, _, _ => none
    | _ => none
  | acc, c :: t => if c.toNat < 32 then none else parseStrAux (c :: acc) t

def digitsToNat (l : List Char) : Nat :=
  l.foldl (fun a c => a * 10 + (c.toNat - 48)) 0

/-- JSON number literal, restricted to integers: optional minus sign,
digit run with no redundant leading zero, and not followed by a
fraction or exponent part. -/
def parseNum (l : List Char) : Option (Int × List Char) :=
  let p := match l with
    | '-' :: t => (true, t)
    | _ => (false, l)
  let ds := p.2.takeWhile Char.isDigit
  let rest := p.2.dropWhile Char.isDigit
  if ds.isEmpty then none
  else if ds.length > 1 && ds.headD '0' = '0' then none
  else match rest with
    | '.' :: _ => none
    | 'e' :: _ => none
    | 'E' :: _ => none
    | _ =>
      let n : Int := Int.ofNat (digitsToNat ds)
      some (if p.1 then -n else n, rest)

def lookupKey : List (String × JVal) → String → Option JVal
  | [], _ => none
  | (k, v) :: t, k2 => if k = k2 then some v else lookupKey t k2

def removeKey (k : String) (kvs : List (String × JVal)) : List (String × JVal) :=
  kvs.filter (fun p => ! (p.1 == k))

/-- Python-dict member accumulation: for a duplicated key the first
occurrence keeps its position and the last occurrence keeps its value.
`objInsert k v kvs` prepends member `(k, v)` to the already-assembled
later members `kvs`. -/
def objInsert (k : String) (v : JVal) (kvs : List (String × JVal)) :
    List (String × JVal) :=
  match lookupKey kvs k with
  | some v2 => (k, v2) :: removeKey k kvs
  | none => (k, v) :: kvs

inductive PRes where
  | pv : JVal → PRes
  | pa : List JVal → PRes
  | po : List (String × JVal) → PRes

/-- Recursive-descent `json.loads` core.  `mode` 0 parses one value,
mode 1 a nonempty comma-separated element list up to `]`, mode 2 a
nonempty member list up to the closing brace.  The fuel only bounds the
recursion depth; `jsonLoads` supplies enough for any input. -/
def parseF : Nat → Nat → List Char → Option (PRes × List Char)
  | 0, _, _ => none
  | Nat.succ fuel, mode, l =>
    if mode = 0 then
      match skipWs l with
      | [] => none
      | c :: t =>
        if c = lbrace then
          match skipWs t with
          | [] => none
          | c2 :: t2 =>
            if c2 = rbrace then some (PRes.pv (JVal.jobj []), t2)
            else
              match parseF fuel 2 (c2 :: t2) with
              | some (PRes.po kvs, r) => some (PRes.pv (JVal.jobj kvs), r)
              | _ => none
        else if c = '[' then
          match skipWs t with
          | ']' :: t2 => some (PRes.pv (JVal.jarr []), t2)
          | t2 =>
            match parseF fuel 1 t2 with
            | some (PRes.pa vs, r) => some (PRes.pv (JVal.jarr vs), r)
            | _ => none
        else if c = '"' then
          match parseStrAux [] t with
          | some (s, r) => some (PRes.pv (JVal.jstr s), r)
          | none => none
        else if c = 't' then
          match t with
          | 'r' :: 'u' :: 'e' :: t2 => some (PRes.pv (JVal.jbool true), t2)
          | _ => none
        else if c = 'f' then
          match t with
          | 'a' :: 'l' :: 's' :: 'e' :: t2 => some (PRes.pv (JVal.jbool false), t2)
          | _ => none
        else if c = 'n' then
          match t with
          | 'u' :: 'l' :: 'l' :: t2 => some (PRes.pv JVal.jnull, t2)
          | _ => none
        else
          match parseNum (c :: t) with
          | some (n, r) => some (PRes.pv (JVal.jnum n), r)
          | none => none
    else if mode = 1 then
      match parseF fuel 0 l with
      | some (PRes.pv v, r1) =>
        (match skipWs r1 with
         | ',' :: r2 =>
           match parseF fuel 1 r2 with
           | some (PRes.pa vs, r3) => some (PRes.pa (v :: vs), r3)
           | _ => none
         | ']' :: r2 => some (PRes.pa [v], r2)
         | _ => none)
      | _ => none
    else
      match skipWs l with
      | [] => none
      | c :: t =>
        if c = '"' then
          match parseStrAux [] t with
          | some (k, r1) =>
            (match skipWs r1 with
             | ':' :: r2 =>
               match parseF fuel 0 r2 with
               | some (PRes.pv v, r3) =>
                 (match skipWs r3 with
                  | [] => none
                  | c5 :: r4 =>
                    if c5 = ',' then
                      match parseF fuel 2 r4 with
                      | some (PRes.po kvs, r5) =>
                        some (PRes.po (objInsert k v kvs), r5)
                      | _ => none
                    else if c5 = rbrace then some (PRes.po [(k, v)], r4)
                    else none)
               | _ => none
             | _ => none)
          | none => none
        else none

/-- `json.loads`: one value, then only whitespace may remain
("Extra data" otherwise). -/
def jsonLoads (s : String) : Option JVal :=
  match parseF (2 * s.length + 4) 0 s.data with
  | some (PRes.pv v, rest) => if (skipWs rest).isEmpty then some v else none
  | _ => none

/-- `re.search` of a brace-delimited span with DOTALL (line 273): the
leftmost match of the greedy pattern runs from the first opening brace
to the last closing brace of the text, provided the latter comes after
the former. -/
def extractJsonSpan (l : List Char) : Option (List Char) :=
  match l.findIdx? (fun c => c = lbrace),
        (l.reverse.findIdx? (fun c => c = rbrace)).map (fun k => l.length - 1 - k) with
  | some i, some j => if i < j then some ((l.drop i).take (j - i + 1)) else none
  | _, _ => none

/-- First `re.sub` of `_clean_json_datetime_formats` at the two-digit
reading of the greedy hour group. -/
def sub1TwoAt : List Char → Option (List Char × List Char)
  | 'T' :: d1 :: d2 :: ':' :: ':' :: e1 :: e2 :: r =>
    if d1.isDigit && d2.isDigit && e1.isDigit && e2.isDigit then
      some (['T', d1, d2, ':', e1, e2, ':', '0', '0'], r)
    else none
  | _ => none

def sub1OneAt : List Char → Option (List Char × List Char)
  | 'T' :: d1 :: ':' :: ':' :: e1 :: e2 :: r =>
    if d1.isDigit && e1.isDigit && e2.isDigit then
      some (['T', d1, ':', e1, e2, ':', '0', '0'], r)
    else none
  | _ => none

def sub1At (l : List Char) : Option (List Char × List Char) :=
  match sub1TwoAt l with
  | some x => some x
  | none => sub1OneAt l

/-- Second `re.sub`: add seconds before a closing quote. -/
def sub2TwoAt : List Char → Option (List Char × List Char)
  | 'T' :: d1 :: d2 :: ':' :: e1 :: e2 :: '"' :: r =>
    if d1.isDigit && d2.isDigit && e1.isDigit && e2.isDigit then
      some (['T', d1, d2, ':', e1, e2, ':', '0', '0', '"'], r)
    else none
  | _ => none

def sub2OneAt : List Char → Option (List Char × List Char)
  | 'T' :: d1 :: ':' :: e1 :: e2 :: '"' :: r =>
    if d1.isDigit && e1.isDigit && e2.isDigit then
      some (['T', d1, ':', e1, e2, ':', '0', '0', '"'], r)
    else none
  | _ => none

def sub2At (l : List Char) : Option (List Char × List Char) :=
  match sub2TwoAt l with
  | some x => some x
  | none => sub2OneAt l

/-- Third `re.sub`: insert seconds before a non-colon character that
precedes a closing quote. -/
def sub3At : List Char → Option (List Char × List Char)
  | 'T' :: d1 :: d2 :: ':' :: e1 :: e2 :: c :: '"' :: r =>
    if d1.isDigit && d2.isDigit && e1.isDigit && e2.isDigit && !(c = ':') then
      some (['T', d1, d2, ':', e1, e2, ':', '0', '0', c, '"'], r)
    else none
  | _ => none

/-- Global left-to-right non-overlapping substitution, continuing after
each replaced span, as `re.sub` does.  Each matcher consumes at least
one character on success, so fuel equal to the input length suffices. -/
def reSubAux (mAt : List Char → Option (List Char × List Char)) :
    Nat → List Char → List Char
  | _, [] => []
  | 0, l => l
  | Nat.succ fuel, c :: t =>
    match mAt (c :: t) with
    | some (rep, r) => rep ++ reSubAux mAt fuel r
    | none => c :: reSubAux mAt fuel t

def reSub (mAt : List Char → Option (List Char × List Char)) (l : List Char) :
    List Char :=
  reSubAux mAt l.length l

/-- `_clean_json_datetime_formats` (lines 247-264): the three
substitutions in source order. -/
def cleanJsonDatetime (l : List Char) : List Char :=
  reSub sub3At (reSub sub2At (reSub sub1At l))

/-! ### Pydantic schemas (src/src/schemas.py)

`ItemResiduoCADRI` requires `numero_documento : str`; all other fields
are `Optional` and validated independently of one another, so the
embedding keeps only the fields the claims touch (`item_numero`,
`numero_residuo`, `quantidade`) — dropping an independent optional
column does not change whether the kept fields validate or what they
hold.  `CADRIExtractionResult.processed_at` is omitted because its
validator never fails (it falls back to `datetime.now()` on any
unparseable input), so it cannot influence success either. -/

structure ItemR where
  numero_documento : String := ""
  item_numero : Option String := none
  numero_residuo : Option String := none
  quantidade : Option String := none

structure CADRIResult where
  numero_documento : String
  total_items : Int
  items : List ItemR
  extraction_method : String

/-- Pydantic v1 coercion to `str`: strings pass through, numbers and
booleans are stringified (`str(True) = 'True'`), anything else fails. -/
def coerceStr : JVal → Option String
  | JVal.jstr s => some s
  | JVal.jnum n => some (toString n)
  | JVal.jbool b => some (if b then "True" else "False")
  | _ => none

/-- `int(v)` on a string: optional surrounding whitespace, optional
sign, nonempty digit run. -/
def strToInt (s : String) : Option Int :=
  let p : Bool × List Char := match pyStripL s.data with
    | '-' :: t => (true, t)
    | '+' :: t => (false, t)
    | l => (false, l)
  if !p.2.isEmpty && p.2.all Char.isDigit then
    some (if p.1 then -(Int.ofNat (digitsToNat p.2)) else Int.ofNat (digitsToNat p.2))
  else none

/-- Pydantic v1 coercion to `int`: ints pass, bools count as ints,
digit strings are converted, anything else fails. -/
def coerceInt : JVal → Option Int
  | JVal.jnum n => some n
  | JVal.jbool b => some (if b then 1 else 0)
  | JVal.jstr s => strToInt s
  | _ => none

/-- An `Optional[str]` field: absent or null is a valid `None`, any
other value must coerce to `str`. -/
def coerceOptStrField (kvs : List (String × JVal)) (k : String) :
    Option (Option String) :=
  match lookupKey kvs k with
  | none => some none
  | some JVal.jnull => some none
  | some v => (coerceStr v).map some

def validateItem (v : JVal) : Option ItemR :=
  match v with
  | JVal.jobj kvs =>
    match lookupKey kvs "numero_documento" with
    | none => none
    | some nv =>
      match coerceStr nv with
      | none => none
      | some nd =>
        match coerceOptStrField kvs "item_numero",
              coerceOptStrField kvs "numero_residuo",
              coerceOptStrField kvs "quantidade" with
        | some a, some b, some c =>
          some { numero_documento := nd, item_numero := a,
                 numero_residuo := b, quantidade := c }
        | _, _, _ => none
  | _ => none

def optMapList (f : α → Option β) : List α → Option (List β)
  | [] => some []
  | a :: t =>
    match f a with
    | none => none
    | some b => (optMapList f t).map (fun bs => b :: bs)

/-- `CADRIExtractionResult(**data)`: required `numero_documento` and
`total_items`, required list of valid items, `extraction_method`
defaulting to "llm" when absent (a null would fail, the field is not
Optional).  Extra keys are ignored, as by the default Pydantic config. -/
def validateResult (kvs : List (String × JVal)) : Option CADRIResult :=
  match lookupKey kvs "numero_documento" with
  | none => none
  | some nv =>
    match coerceStr nv with
    | none => none
    | some nd =>
      match lookupKey kvs "total_items" with
      | none => none
      | some tv =>
        match coerceInt tv with
        | none => none
        | some ti =>
          match lookupKey kvs "items" with
          | none => none
          | some (JVal.jarr its) =>
            match optMapList validateItem its with
            | none => none
            | some itemRs =>
              match (match lookupKey kvs "extraction_method" with
                     | none => some "llm"
                     | some ev => coerceStr ev) with
              | none => none
              | some em =>
                some { numero_documento := nd, total_items := ti,
                       items := itemRs, extraction_method := em }
          | some _ => none

/-- `len()` of a Python value: lists, strings and dicts have a length,
anything else raises `TypeError` (caught by the enclosing handler). -/
def pyLen : JVal → Option Int
  | JVal.jarr vs => some (Int.ofNat vs.length)
  | JVal.jstr s => some (Int.ofNat s.length)
  | JVal.jobj kvs => some (Int.ofNat kvs.length)
  | _ => none

/-- Python dict assignment `d[k] = v`: an existing key keeps its
position and takes the new value, a new key is appended. -/
def setKey (kvs : List (String × JVal)) (k : String) (v : JVal) :
    List (String × JVal) :=
  if (lookupKey kvs k).isSome then
    kvs.map (fun p => if p.1 = k then (p.1, v) else p)
  else kvs ++ [(k, v)]

/-- Per-item backfill of lines 302-304: a dict item without
`numero_documento` receives the document id; other items pass through
unchanged (they make the loop or the validation raise later). -/
def fixOne (docId : String) (it : JVal) : JVal :=
  match it with
  | JVal.jobj ikvs =>
    if (lookupKey ikvs "numero_documento").isSome then JVal.jobj ikvs
    else JVal.jobj (setKey ikvs "numero_documento" (JVal.jstr docId))
  | other => other

def fixItems (docId : String) (its : List JVal) : List JVal :=
  its.map (fixOne docId)

/-- Fixups of lines 293-304 over the dict that already holds a
`numero_documento`, followed by Pydantic validation (line 307). -/
def parseLLMFix2 (kvs1 : List (String × JVal)) (docId : String) :
    Option CADRIResult :=
  match lookupKey kvs1 "items" with
  | none =>
    validateResult
      (setKey (setKey kvs1 "items" (JVal.jarr [])) "total_items" (JVal.jnum 0))
  | some itemsVal =>
    match (if (lookupKey kvs1 "total_items").isNone then
             (pyLen itemsVal).map (fun n => setKey kvs1 "total_items" (JVal.jnum n))
           else some kvs1) with
    | none => none
    | some kvs2 =>
      match itemsVal with
      | JVal.jarr its =>
        validateResult (setKey kvs2 "items" (JVal.jarr (fixItems docId its)))
      | _ => none

/-- Structural fixups of `_parse_llm_response` lines 290-304 followed by
Pydantic validation (line 307).  A non-dict item, or a non-list `items`
value that survives the length probe, makes the per-item loop or the
validation raise, which the enclosing handler turns into `None`; the
embedding returns `none` in exactly those situations. -/
def parseLLMData (data : JVal) (docId : String) : Option CADRIResult :=
  match data with
  | JVal.jobj kvs0 =>
    parseLLMFix2
      (if (lookupKey kvs0 "numero_documento").isSome then kvs0
       else setKey kvs0 "numero_documento" (JVal.jstr docId)) docId
  | _ => none

/-- `_parse_llm_response` (lines 266-318): strip, extract the JSON
span, repair datetimes, `json.loads`, fix up and validate. -/
def parseLLMResponse (response : String) (docId : String) : Option CADRIResult :=
  match extractJsonSpan (pyStripL response.data) with
  | none => none
  | some span =>
    match jsonLoads (String.mk (cleanJsonDatetime span)) with
    | none => none
    | some data => parseLLMData data docId

/-! ### `parse_pdf` orchestration (lines 350-422) -/

/-- `flatten_item_to_dict`, restricted to the columns the embedded item
carries; the remaining columns are produced field-by-field in the same
way (the nondeterministic `updated_at` timestamp is omitted). -/
def flattenItemToDict (it : ItemR) : List (String × Option String) :=
  [("numero_documento", some it.numero_documento),
   ("item_numero", it.item_numero),
   ("numero_residuo", it.numero_residuo),
   ("quantidade", it.quantidade)]

/-- The dictionaries produced by the standalone regex parser, projected
to the same columns for comparison with the LLM path. -/
def regexItemToRec (it : Item) : List (String × Option String) :=
  [("numero_documento", some it.numero_documento),
   ("item_numero", some it.item_numero),
   ("numero_residuo", some it.numero_residuo),
   ("quantidade", some it.quantidade)]

/-- One document as seen by `parse_pdf`: its identifier (the PDF file
stem), the text PyMuPDF extracts from it, and the remote model's reply
(`none` models a failed call, `some ""` an empty reply; both are falsy
at line 390). -/
structure LLMEnv where
  docId : String
  pdfText : String
  llmResponse : Option String

/-- The mutable fields of `LLMPDFParser` that `parse_pdf` touches:
`parsed_cache` and the `stats` counters. -/
structure LLMState where
  parsedCache : List String := []
  cacheHits : Nat := 0
  processed : Nat := 0
  itemsExtracted : Nat := 0
  errors : Nat := 0
  llmErrors : Nat := 0
  fallbackUsed : Nat := 0

/-- `_fallback_to_regex_parser` (lines 320-348): run the standalone
regex parser on the same document.  The standalone parser re-extracts
the text of the same PDF with the same PyMuPDF call, so it sees
`env.pdfText`; the secondary Docling fallback only runs if the
standalone parser raises, which the embedded total pipeline cannot. -/
def fallbackToRegex (env : LLMEnv) (st : LLMState) :
    List (List (String × Option String)) × LLMState :=
  ((cadriPipeline env.pdfText env.docId).map regexItemToRec,
   { st with fallbackUsed := st.fallbackUsed + 1 })

/-- `parse_pdf` (lines 350-422): cache gate, empty-text gate, LLM call,
response parse with regex fallback, flatten and cache update. -/
def llmParsePdf (env : LLMEnv) (force : Bool) (st : LLMState) :
    List (List (String × Option String)) × LLMState :=
  if !force && st.parsedCache.contains env.docId then
    ([], { st with cacheHits := st.cacheHits + 1 })
  else if (pyStrip env.pdfText).isEmpty then
    ([], { st with errors := st.errors + 1 })
  else
    match env.llmResponse with
    | none => fallbackToRegex env { st with llmErrors := st.llmErrors + 1 }
    | some resp =>
      if resp.isEmpty then
        fallbackToRegex env { st with llmErrors := st.llmErrors + 1 }
      else
        match parseLLMResponse resp env.docId with
        | none => fallbackToRegex env { st with llmErrors := st.llmErrors + 1 }
        | some res =>
          let recs := res.items.map flattenItemToDict
          (recs, { st with processed := st.processed + 1,
                           itemsExtracted := st.itemsExtracted + recs.length,
                           parsedCache := env.docId :: st.parsedCache })

/-! ## Claims C4 and C10: lemmas about lookups and validation -/

theorem lookupKey_cons (pk : String) (pv : JVal) (t : List (String × JVal))
    (k2 : String) :
    lookupKey ((pk, pv) :: t) k2 = if pk = k2 then some pv else lookupKey t k2 :=
  rfl

theorem lookupKey_map_set (kvs : List (String × JVal)) (k : String) (v : JVal) :
    lookupKey (kvs.map (fun p => if p.1 = k then (p.1, v) else p)) k =
      if (lookupKey kvs k).isSome then some v else none := by
  induction kvs with
  | nil => simp [lookupKey]
  | cons p t ih =>
    obtain ⟨pk, pv⟩ := p
    simp only [List.map_cons]
    by_cases hp : pk = k
    · subst hp
      simp [lookupKey_cons]
    · rw [if_neg hp, lookupKey_cons, if_neg hp, ih, lookupKey_cons, if_neg hp]

theorem lookupKey_map_set_ne (kvs : List (String × JVal)) (k k2 : String)
    (v : JVal) (h : k2 ≠ k) :
    lookupKey (kvs.map (fun p => if p.1 = k then (p.1, v) else p)) k2 =
      lookupKey kvs k2 := by
  induction kvs with
  | nil => simp [lookupKey]
  | cons p t ih =>
    obtain ⟨pk, pv⟩ := p
    simp only [List.map_cons]
    by_cases hp : pk = k
    · have hp2 : ¬ pk = k2 := fun he => h (he.symm.trans hp)
      subst hp
      rw [if_pos rfl, lookupKey_cons, if_neg hp2, ih, lookupKey_cons, if_neg hp2]
    · rw [if_neg hp, lookupKey_cons, ih, lookupKey_cons]

theorem lookupKey_append (kvs kvs2 : List (String × JVal)) (k2 : String) :
    lookupKey (kvs ++ kvs2) k2 =
      match lookupKey kvs k2 with
      | some w => some w
      | none => lookupKey kvs2 k2 := by
  induction kvs with
  | nil => simp [lookupKey]
  | cons p t ih =>
    obtain ⟨pk, pv⟩ := p
    by_cases hq : pk = k2
    · simp [lookupKey, hq]
    · simp [lookupKey, hq, ih]

theorem lookupKey_setKey_self (kvs : List (String × JVal)) (k : String) (v : JVal) :
    lookupKey (setKey kvs k v) k = some v := by
  unfold setKey
  by_cases h : (lookupKey kvs k).isSome
  · rw [if_pos h, lookupKey_map_set, if_pos h]
  · rw [if_neg h, lookupKey_append]
    rw [Option.not_isSome_iff_eq_none] at h
    rw [h]
    simp [lookupKey]

theorem lookupKey_setKey_ne (kvs : List (String × JVal)) (k k2 : String)
    (v : JVal) (h : k2 ≠ k) :
    lookupKey (setKey kvs k v) k2 = lookupKey kvs k2 := by
  unfold setKey
  by_cases hs : (lookupKey kvs k).isSome
  · rw [if_pos hs]
    exact lookupKey_map_set_ne kvs k k2 v h
  · rw [if_neg hs, lookupKey_append]
    cases hl : lookupKey kvs k2 with
    | some w => rfl
    | none =>
      show lookupKey [(k, v)] k2 = none
      rw [lookupKey_cons, if_neg (fun he : k = k2 => h he.symm)]
      rfl

theorem validateResult_total (kvs : List (String × JVal)) (n : Int)
    (res : CADRIResult)
    (ht : lookupKey kvs "total_items" = some (JVal.jnum n))
    (h : validateResult kvs = some res) : res.total_items = n := by
  unfold validateResult at h
  split at h
  · exact absurd h (by simp)
  case _ nv hnv =>
    split at h
    · exact absurd h (by simp)
    case _ nd hnd =>
      split at h
      · exact absurd h (by simp)
      case _ tv htv =>
        rw [ht] at htv
        injection htv with htv2
        rw [← htv2] at h
        split at h
        · exact absurd h (by simp)
        case _ ti hti =>
          simp only [coerceInt] at hti
          injection hti with hti2
          split at h
          · exact absurd h (by simp)
          case _ its hits =>
            split at h
            · exact absurd h (by simp)
            case _ itemRs hmap =>
              split at h
              · exact absurd h (by simp)
              case _ em hem =>
                injection h with h2
                rw [← h2, ← hti2]
          · exact absurd h (by simp)

theorem validateResult_nd (kvs : List (String × JVal)) (v : JVal)
    (res : CADRIResult)
    (hk : lookupKey kvs "numero_documento" = some v)
    (h : validateResult kvs = some res) :
    coerceStr v = some res.numero_documento := by
  unfold validateResult at h
  split at h
  · exact absurd h (by simp)
  case _ nv hnv =>
    rw [hk] at hnv
    injection hnv with hnv2
    rw [← hnv2] at h
    split at h
    · exact absurd h (by simp)
    case _ nd hnd =>
      split at h
      · exact absurd h (by simp)
      case _ tv htv =>
        split at h
        · exact absurd h (by simp)
        case _ ti hti =>
          split at h
          · exact absurd h (by simp)
          case _ its hits =>
            split at h
            · exact absurd h (by simp)
            case _ itemRs hmap =>
              split at h
              · exact absurd h (by simp)
              case _ em hem =>
                injection h with h2
                rw [← h2]
                exact hnd
          · exact absurd h (by simp)

theorem validateResult_items (kvs : List (String × JVal)) (its : List JVal)
    (res : CADRIResult)
    (hk : lookupKey kvs "items" = some (JVal.jarr its))
    (h : validateResult kvs = some res) :
    optMapList validateItem its = some res.items := by
  unfold validateResult at h
  split at h
  · exact absurd h (by simp)
  case _ nv hnv =>
    split at h
    · exact absurd h (by simp)
    case _ nd hnd =>
      split at h
      · exact absurd h (by simp)
      case _ tv htv =>
        split at h
        · exact absurd h (by simp)
        case _ ti hti =>
          split at h
          · exact absurd h (by simp)
          case _ its0 hits =>
            rw [hk] at hits
            injection hits with hits2
            injection hits2 with hits3
            rw [← hits3] at h
            split at h
            · exact absurd h (by simp)
            case _ itemRs hmap =>
              split at h
              · exact absurd h (by simp)
              case _ em hem =>
                injection h with h2
                rw [← h2]
                exact hmap
          · exact absurd h (by simp)

theorem validateItem_nd (ikvs : List (String × JVal)) (ir : ItemR)
    (h : validateItem (JVal.jobj ikvs) = some ir) :
    ∃ v, lookupKey ikvs "numero_documento" = some v ∧
      coerceStr v = some ir.numero_documento := by
  simp only [validateItem] at h
  split at h
  · exact absurd h (by simp)
  case _ nv hnv =>
    split at h
    · exact absurd h (by simp)
    case _ nd hnd =>
      cases hA : coerceOptStrField ikvs "item_numero" with
      | none => rw [hA] at h; simp at h
      | some a =>
        cases hB : coerceOptStrField ikvs "numero_residuo" with
        | none => rw [hA, hB] at h; simp at h
        | some b =>
          cases hC : coerceOptStrField ikvs "quantidade" with
          | none => rw [hA, hB, hC] at h; simp at h
          | some c =>
            rw [hA, hB, hC] at h
            injection h with h2
            refine ⟨nv, hnv, ?_⟩
            rw [← h2]
            exact hnd

theorem optMapList_forall2 {α β : Type} (f : α → Option β) :
    ∀ (l : List α) (l2 : List β), optMapList f l = some l2 →
      List.Forall₂ (fun a b => f a = some b) l l2 := by
  intro l
  induction l with
  | nil =>
    intro l2 h
    simp only [optMapList] at h
    injection h with h2
    rw [← h2]
    exact List.Forall₂.nil
  | cons a t ih =>
    intro l2 h
    simp only [optMapList] at h
    cases hfa : f a with
    | none => rw [hfa] at h; simp at h
    | some b =>
      rw [hfa] at h
      cases hot : optMapList f t with
      | none => rw [hot] at h; simp at h
      | some bs =>
        rw [hot] at h
        simp only [Option.map_some] at h
        injection h with h2
        rw [← h2]
        exact List.Forall₂.cons hfa (ih bs hot)

theorem parseLLMFix2_total_declared (kvs1 : List (String × JVal)) (docId : String)
    (n : Int) (its : List JVal) (res : CADRIResult)
    (htot : lookupKey kvs1 "total_items" = some (JVal.jnum n))
    (hits : lookupKey kvs1 "items" = some (JVal.jarr its))
    (h : parseLLMFix2 kvs1 docId = some res) :
    res.total_items = n := by
  unfold parseLLMFix2 at h
  rw [hits, htot] at h
  simp only [Option.isNone_some, Bool.false_eq_true, if_false] at h
  exact validateResult_total _ n res
    (by rw [lookupKey_setKey_ne _ _ _ _ (by decide)]; exact htot) h

theorem parseLLMFix2_total_absent (kvs1 : List (String × JVal)) (docId : String)
    (its : List JVal) (res : CADRIResult)
    (htot : lookupKey kvs1 "total_items" = none)
    (hits : lookupKey kvs1 "items" = some (JVal.jarr its))
    (h : parseLLMFix2 kvs1 docId = some res) :
    res.total_items = Int.ofNat its.length := by
  unfold parseLLMFix2 at h
  rw [hits, htot] at h
  simp only [Option.isNone_none, if_true, pyLen, Option.map_some] at h
  exact validateResult_total _ _ res
    (by rw [lookupKey_setKey_ne _ _ _ _ (by decide), lookupKey_setKey_self]) h

def c4Resp : String :=
  "pre \x7b\"total_items\": 5, \"items\": [\x7b\x7d, \x7b\x7d, \x7b\x7d]\x7d post"

def c4Kvs : List (String × JVal) :=
  [("total_items", JVal.jnum 5),
   ("items", JVal.jarr [JVal.jobj [], JVal.jobj [], JVal.jobj []])]

def c4It : ItemR := { numero_documento := "DOC1" }

def c4Res : CADRIResult :=
  { numero_documento := "DOC1", total_items := 5,
    items := [c4It, c4It, c4It], extraction_method := "llm" }

/-- C4: for an LLM response whose JSON object declares `total_items`
different from the length of its `items` array, the fixups of
`_parse_llm_response` KEEP the declared value (the recomputation of
line 294 only runs when `total_items` is absent), so the stored result
carries the declared count, not the recomputed one.  This refutes the
claim that the total is recomputed from the array on a mismatch. -/
theorem C4_total_items_counterexample :
    (parseLLMResponse c4Resp "DOC1").map
        (fun r => (r.total_items, r.items.length)) = some (5, 3) ∧
    (5 : Int) ≠ (3 : Int) :=
  ⟨rfl, by decide⟩

/-- C4, amended: a declared `total_items` integer is kept verbatim in
the validated result whenever the response also carries an `items`
array; the total is recomputed as the array length only when the
response omits `total_items`. -/
theorem C4_total_items_amended (kvs0 : List (String × JVal)) (docId : String)
    (res : CADRIResult)
    (hres : parseLLMData (JVal.jobj kvs0) docId = some res) :
    (∀ n its, lookupKey kvs0 "total_items" = some (JVal.jnum n) →
       lookupKey kvs0 "items" = some (JVal.jarr its) →
       res.total_items = n) ∧
    (∀ its, lookupKey kvs0 "total_items" = none →
       lookupKey kvs0 "items" = some (JVal.jarr its) →
       res.total_items = Int.ofNat its.length) := by
  simp only [parseLLMData] at hres
  by_cases hnd : (lookupKey kvs0 "numero_documento").isSome
  · rw [if_pos hnd] at hres
    exact ⟨fun n its h1 h2 => parseLLMFix2_total_declared kvs0 docId n its res h1 h2 hres,
           fun its h1 h2 => parseLLMFix2_total_absent kvs0 docId its res h1 h2 hres⟩
  · rw [if_neg hnd] at hres
    constructor
    · intro n its h1 h2
      exact parseLLMFix2_total_declared _ docId n its res
        (by rw [lookupKey_setKey_ne _ _ _ _ (by decide)]; exact h1)
        (by rw [lookupKey_setKey_ne _ _ _ _ (by decide)]; exact h2) hres
    · intro its h1 h2
      exact parseLLMFix2_total_absent _ docId its res
        (by rw [lookupKey_setKey_ne _ _ _ _ (by decide)]; exact h1)
        (by rw [lookupKey_setKey_ne _ _ _ _ (by decide)]; exact h2) hres

/-- C4, amended, witness: the declared total 5 is kept although the
array holds 3 items. -/
theorem C4_total_items_amended_witness :
    (∀ n its, lookupKey c4Kvs "total_items" = some (JVal.jnum n) →
       lookupKey c4Kvs "items" = some (JVal.jarr its) →
       c4Res.total_items = n) ∧
    (∀ its, lookupKey c4Kvs "total_items" = none →
       lookupKey c4Kvs "items" = some (JVal.jarr its) →
       c4Res.total_items = Int.ofNat its.length) :=
  C4_total_items_amended c4Kvs "DOC1" c4Res rfl

theorem parseLLMFix2_items (kvs1 : List (String × JVal)) (docId : String)
    (its : List JVal) (res : CADRIResult)
    (hits : lookupKey kvs1 "items" = some (JVal.jarr its))
    (h : parseLLMFix2 kvs1 docId = some res) :
    optMapList validateItem (fixItems docId its) = some res.items := by
  unfold parseLLMFix2 at h
  by_cases htot : (lookupKey kvs1 "total_items").isNone
  · simp only [hits, htot, if_true, pyLen, Option.map_some] at h
    exact validateResult_items _ _ res (lookupKey_setKey_self _ _ _) h
  · have htot2 : (lookupKey kvs1 "total_items").isNone = false := by
      rw [← Bool.not_eq_true]; exact htot
    simp only [hits, htot2, Bool.false_eq_true, if_false] at h
    exact validateResult_items _ _ res (lookupKey_setKey_self _ _ _) h

theorem parseLLMFix2_shape (kvs1 : List (String × JVal)) (docId : String)
    (res : CADRIResult) (h : parseLLMFix2 kvs1 docId = some res) :
    (validateResult
        (setKey (setKey kvs1 "items" (JVal.jarr [])) "total_items" (JVal.jnum 0)) =
      some res) ∨
    (∃ its kvs2, lookupKey kvs1 "items" = some (JVal.jarr its) ∧
       (kvs2 = kvs1 ∨ kvs2 = setKey kvs1 "total_items" (JVal.jnum (Int.ofNat its.length))) ∧
       validateResult (setKey kvs2 "items" (JVal.jarr (fixItems docId its))) = some res) := by
  unfold parseLLMFix2 at h
  split at h
  · exact Or.inl h
  case _ itemsVal hits =>
    split at h
    · exact absurd h (by simp)
    case _ kvs2 hk2 =>
      split at h
      case _ its =>
        refine Or.inr ⟨its, kvs2, hits, ?_, h⟩
        by_cases htot : (lookupKey kvs1 "total_items").isNone
        · rw [if_pos htot] at hk2
          simp only [pyLen, Option.map_some] at hk2
          injection hk2 with hk3
          exact Or.inr hk3.symm
        · rw [if_neg htot] at hk2
          injection hk2 with hk3
          exact Or.inl hk3.symm
      case _ => exact absurd h (by simp)

theorem parseLLMFix2_nd (kvs1 : List (String × JVal)) (docId : String)
    (res : CADRIResult) (v : JVal)
    (hnd : lookupKey kvs1 "numero_documento" = some v)
    (h : parseLLMFix2 kvs1 docId = some res) :
    coerceStr v = some res.numero_documento := by
  rcases parseLLMFix2_shape kvs1 docId res h with h2 | ⟨its, kvs2, hits, hk2, h2⟩
  · exact validateResult_nd _ v res
      (by rw [lookupKey_setKey_ne _ _ _ _ (by decide),
              lookupKey_setKey_ne _ _ _ _ (by decide)]; exact hnd) h2
  · rcases hk2 with hk2 | hk2
    · subst hk2
      exact validateResult_nd _ v res
        (by rw [lookupKey_setKey_ne _ _ _ _ (by decide)]; exact hnd) h2
    · subst hk2
      exact validateResult_nd _ v res
        (by rw [lookupKey_setKey_ne _ _ _ _ (by decide),
                lookupKey_setKey_ne _ _ _ _ (by decide)]; exact hnd) h2

theorem validateItem_fixOne (docId : String) (iv : JVal) (ir : ItemR)
    (hfi : validateItem (fixOne docId iv) = some ir) :
    ∀ ikvs, iv = JVal.jobj ikvs →
      (lookupKey ikvs "numero_documento" = none → ir.numero_documento = docId) ∧
      (∀ v, lookupKey ikvs "numero_documento" = some v →
         coerceStr v = some ir.numero_documento) := by
  intro ikvs hiv
  subst hiv
  simp only [fixOne] at hfi
  by_cases hnd : (lookupKey ikvs "numero_documento").isSome
  · rw [if_pos hnd] at hfi
    obtain ⟨v2, hv2, hc⟩ := validateItem_nd _ _ hfi
    constructor
    · intro hnone
      rw [hnone] at hv2
      exact absurd hv2 (by simp)
    · intro v hv
      rw [hv] at hv2
      injection hv2 with hv3
      rw [hv3]
      exact hc
  · rw [if_neg hnd] at hfi
    obtain ⟨v2, hv2, hc⟩ := validateItem_nd _ _ hfi
    rw [lookupKey_setKey_self] at hv2
    injection hv2 with hv3
    constructor
    · intro hnone
      rw [← hv3] at hc
      simp only [coerceStr] at hc
      injection hc with hc2
      exact hc2.symm
    · intro v hv
      rw [Option.not_isSome_iff_eq_none] at hnd
      rw [hnd] at hv
      exact absurd hv (by simp)

def c10Kvs : List (String × JVal) :=
  [("items", JVal.jarr [JVal.jobj [("quantidade", JVal.jstr "5")]])]

def c10It : ItemR := { numero_documento := "D7", quantidade := some "5" }

def c10Res : CADRIResult :=
  { numero_documento := "D7", total_items := 1, items := [c10It],
    extraction_method := "llm" }

/-- C10: for an LLM response that parses and validates successfully,
the document id is backfilled before validation: a missing top-level
`numero_documento` becomes the id derived from the PDF filename, every
item of the `items` array that lacks `numero_documento` receives that
id (an item that declares one keeps it, coerced to string), and the
flattened record of every resulting item carries its
`numero_documento` under that CSV column. -/
theorem C10_document_id_backfill (kvs0 : List (String × JVal)) (docId : String)
    (res : CADRIResult)
    (hres : parseLLMData (JVal.jobj kvs0) docId = some res) :
    (lookupKey kvs0 "numero_documento" = none → res.numero_documento = docId) ∧
    (∀ its, lookupKey kvs0 "items" = some (JVal.jarr its) →
       List.Forall₂ (fun iv ir =>
         ∀ ikvs, iv = JVal.jobj ikvs →
           (lookupKey ikvs "numero_documento" = none →
              ItemR.numero_documento ir = docId) ∧
           (∀ v, lookupKey ikvs "numero_documento" = some v →
              coerceStr v = some (ItemR.numero_documento ir))) its res.items) ∧
    (∀ ir, ir ∈ res.items →
       (flattenItemToDict ir).lookup "numero_documento" =
         some (some (ItemR.numero_documento ir))) := by
  simp only [parseLLMData] at hres
  refine ⟨?_, ?_, ?_⟩
  · intro hnone
    rw [if_neg (by rw [hnone]; simp)] at hres
    have hc := parseLLMFix2_nd _ docId res (JVal.jstr docId)
      (lookupKey_setKey_self _ _ _) hres
    simp only [coerceStr] at hc
    injection hc with hc2
    exact hc2.symm
  · intro its hits
    have hmap : optMapList validateItem (fixItems docId its) = some res.items := by
      by_cases hnd : (lookupKey kvs0 "numero_documento").isSome
      · rw [if_pos hnd] at hres
        exact parseLLMFix2_items _ docId its res hits hres
      · rw [if_neg hnd] at hres
        exact parseLLMFix2_items _ docId its res
          (by rw [lookupKey_setKey_ne _ _ _ _ (by decide)]; exact hits) hres
    have hf2 := optMapList_forall2 validateItem (fixItems docId its) res.items hmap
    simp only [fixItems] at hf2
    rw [List.forall₂_map_left_iff] at hf2
    exact hf2.imp (fun {iv ir} hfi => validateItem_fixOne docId iv ir hfi)
  · intro ir hmem
    rfl

/-- C10, witness: a response whose single item lacks the document id. -/
theorem C10_document_id_backfill_witness :
    (lookupKey c10Kvs "numero_documento" = none → c10Res.numero_documento = "D7") ∧
    (∀ its, lookupKey c10Kvs "items" = some (JVal.jarr its) →
       List.Forall₂ (fun iv ir =>
         ∀ ikvs, iv = JVal.jobj ikvs →
           (lookupKey ikvs "numero_documento" = none →
              ItemR.numero_documento ir = "D7") ∧
           (∀ v, lookupKey ikvs "numero_documento" = some v →
              coerceStr v = some (ItemR.numero_documento ir))) its c10Res.items) ∧
    (∀ ir, ir ∈ c10Res.items →
       (flattenItemToDict ir).lookup "numero_documento" =
         some (some (ItemR.numero_documento ir))) :=
  C10_document_id_backfill c10Kvs "D7" c10Res rfl

/-! ## Claims C5 and C8 -/

/-- C5: when the remote LLM call fails (no reply, or an empty reply)
or the response cannot be parsed into the expected JSON structure even
after repair, the LLM path returns exactly the records of the
pattern-based parser run against the same document, so these failure
cases never yield fewer records than the non-LLM baseline. -/
theorem C5_llm_fallback (env : LLMEnv) (st : LLMState)
    (hmiss : st.parsedCache.contains env.docId = false)
    (htext : (pyStrip env.pdfText).isEmpty = false)
    (hfail : env.llmResponse = none ∨ env.llmResponse = some "" ∨
       (∃ resp, env.llmResponse = some resp ∧
          parseLLMResponse resp env.docId = none)) :
    (llmParsePdf env false st).1 =
      (cadriPipeline env.pdfText env.docId).map regexItemToRec := by
  unfold llmParsePdf
  simp only [Bool.not_false, Bool.true_and, hmiss, Bool.false_eq_true, if_false, htext]
  rcases hfail with h0 | h0 | ⟨resp, hr, hp⟩
  · rw [h0]
    rfl
  · rw [h0]
    rfl
  · simp only [hr]
    by_cases hre : resp.isEmpty
    · rw [if_pos hre]
      rfl
    · rw [if_neg hre, hp]
      rfl

def c5Env : LLMEnv := { docId := "W5", pdfText := "x", llmResponse := none }

/-- C5, witness: a document whose remote call returned nothing. -/
theorem C5_llm_fallback_witness :
    (llmParsePdf c5Env false {}).1 =
      (cadriPipeline c5Env.pdfText c5Env.docId).map regexItemToRec :=
  C5_llm_fallback c5Env {} rfl rfl (Or.inl rfl)

/-- C8: a document already in the processed cache is skipped without
any extraction work — the call returns no records and the only state
change is the cache-hit counter; and a successful extraction adds the
document id to the cache, so re-running that document without the
force flag in the same session is such a pure cache hit. -/
theorem C8_cache_gate (env : LLMEnv) (st st1 : LLMState) (resp : String)
    (res : CADRIResult)
    (hmem : st.parsedCache.contains env.docId = true)
    (hmiss : st1.parsedCache.contains env.docId = false)
    (htext : (pyStrip env.pdfText).isEmpty = false)
    (hresp : env.llmResponse = some resp)
    (hne : resp.isEmpty = false)
    (hok : parseLLMResponse resp env.docId = some res) :
    llmParsePdf env false st = ([], { st with cacheHits := st.cacheHits + 1 }) ∧
    (llmParsePdf env false st1).2.parsedCache.contains env.docId = true ∧
    llmParsePdf env false ((llmParsePdf env false st1).2) =
      ([], { (llmParsePdf env false st1).2 with
             cacheHits := (llmParsePdf env false st1).2.cacheHits + 1 }) := by
  have hgate : ∀ st2 : LLMState, st2.parsedCache.contains env.docId = true →
      llmParsePdf env false st2 =
        ([], { st2 with cacheHits := st2.cacheHits + 1 }) := by
    intro st2 hm
    unfold llmParsePdf
    rw [hm]
    rfl
  have hrun : (llmParsePdf env false st1).2.parsedCache =
      env.docId :: st1.parsedCache := by
    unfold llmParsePdf
    simp only [Bool.not_false, Bool.true_and, hmiss, Bool.false_eq_true, if_false,
      htext, hresp, hne, hok]
  have hmem2 : (llmParsePdf env false st1).2.parsedCache.contains env.docId = true := by
    rw [hrun]
    simp
  exact ⟨hgate st hmem, hmem2, hgate _ hmem2⟩

def c8Resp : String := "\x7b\"items\": []\x7d"

def c8Env : LLMEnv := { docId := "W8", pdfText := "x", llmResponse := some c8Resp }

def c8Res : CADRIResult :=
  { numero_documento := "W8", total_items := 0, items := [],
    extraction_method := "llm" }

def c8StHit : LLMState := { parsedCache := ["W8"] }

/-- C8, witness: a cached document is skipped, and a fresh successful
extraction caches the id so the rerun is a pure cache hit. -/
theorem C8_cache_gate_witness :
    llmParsePdf c8Env false c8StHit =
      ([], { c8StHit with cacheHits := c8StHit.cacheHits + 1 }) ∧
    (llmParsePdf c8Env false {}).2.parsedCache.contains c8Env.docId = true ∧
    llmParsePdf c8Env false ((llmParsePdf c8Env false {}).2) =
      ([], { (llmParsePdf c8Env false {}).2 with
             cacheHits := (llmParsePdf c8Env false {}).2.cacheHits + 1 }) :=
  C8_cache_gate c8Env c8StHit {} c8Resp c8Res rfl rfl rfl rfl rfl rfl
